import Mathlib

/-!
Verification of the `colorcss` color library (files `lib/colorcss/util.py`,
`base.py`, `rgb.py`, `hsl.py`, `hwb.py`, `__init__.py`).

The Python code is shallowly embedded over `ℚ`: Python floats are modelled as
exact rationals, Python exceptions as `Except PyErr`.  Pure functions become
Lean functions; the in-place mutation methods become functions from the color
value to the new color value.  `while` loops are embedded with an explicit
fuel that is provably sufficient.
-/

namespace ColorCss

/-- Python exception kinds raised by the embedded code.  Message payloads are
kept only where a claim depends on them (the unresolved name for
`NameError`). -/
inductive PyErr where
  | typeError : PyErr
  | valueError : PyErr
  | nameError : String → PyErr
  | indexError : PyErr
  | zeroDivisionError : PyErr
  | assertionError : PyErr
  | attributeError : PyErr
  deriving DecidableEq, Repr

/-- Decidable equality of `Except` results, so concrete runs of the
embedded code can be checked by `decide`. -/
instance {ε α : Type} [DecidableEq ε] [DecidableEq α] : DecidableEq (Except ε α)
  | .ok a, .ok b =>
      match decEq a b with
      | isTrue h => isTrue (h ▸ rfl)
      | isFalse h => isFalse fun hh => h (Except.ok.inj hh)
  | .error a, .error b =>
      match decEq a b with
      | isTrue h => isTrue (h ▸ rfl)
      | isFalse h => isFalse fun hh => h (Except.error.inj hh)
  | .ok _, .error _ => isFalse fun hh => Except.noConfusion hh
  | .error _, .ok _ => isFalse fun hh => Except.noConfusion hh

/-- Embeds `util.clamp(value, mn, mx)`: `max(min(value, mx), mn)`.  The Python
function is used both on floats and on ints, hence the polymorphism. -/
def clamp {α : Type} [LinearOrder α] (value mn mx : α) : α :=
  max (min value mx) mn

/-- Python `math.floor` on a rational, used to model float `%`.
`Int.fdiv` rounds toward negative infinity, matching the floor. -/
def pyFloor (q : ℚ) : ℤ := Int.fdiv q.num (q.den : ℤ)

/-- Python `x % 1.0` on floats: the fractional part, in `[0, 1)`. -/
def pyMod1 (q : ℚ) : ℚ := q - (pyFloor q : ℚ)

/-- Python `int(x)` on a float: truncation toward zero.  `Int.div` is
T-division, which truncates toward zero. -/
def pyInt (q : ℚ) : ℤ := Int.tdiv q.num (q.den : ℤ)

/-- Embeds `decimal.ROUND_HALF_DOWN` to an integer: round to nearest, ties toward
zero.  Embeds `util.round_int`. -/
def round_int (x : ℚ) : ℤ :=
  if 0 ≤ x then -(pyFloor (-(x - 1/2))) else pyFloor (x + 1/2)

/-- Embeds `decimal.ROUND_HALF_UP` at `p` decimal digits: round to nearest, ties
away from zero, returning the scaled integer `round(x * 10^p)`. -/
def roundHalfUpScaled (x : ℚ) (p : ℕ) : ℤ :=
  let y := x * (10 : ℚ) ^ p
  if 0 ≤ y then pyFloor (y + 1/2) else -(pyFloor (-(y - 1/2)))

/-! ### `colorsys` (Python standard library, imported by `util.py`)

Faithful transcriptions of the CPython functions `colorsys.rgb_to_hls`, `hls_to_rgb`,
`rgb_to_hsv` and `hsv_to_rgb`.  The divisions in the `s`/`h` computations are
syntactically guarded by the `minc == maxc` early return for channel values
in `[0, 1]`, which is the only way the library calls them; `ℚ` division by
zero (which returns 0 in Lean) is therefore never exercised on those calls. -/

/-- CPython `colorsys.rgb_to_hls`. -/
def rgb_to_hls (r g b : ℚ) : ℚ × ℚ × ℚ :=
  let maxc := max r (max g b)
  let minc := min r (min g b)
  let l := (minc + maxc) / 2
  if minc = maxc then (0, l, 0)
  else
    let s := if l ≤ 1/2 then (maxc - minc) / (maxc + minc)
             else (maxc - minc) / (2 - maxc - minc)
    let rc := (maxc - r) / (maxc - minc)
    let gc := (maxc - g) / (maxc - minc)
    let bc := (maxc - b) / (maxc - minc)
    let h := if r = maxc then bc - gc
             else if g = maxc then 2 + rc - bc
             else 4 + gc - rc
    (pyMod1 (h / 6), l, s)

/-- CPython `colorsys._v`, the helper of `hls_to_rgb`. -/
def colorsysV (m1 m2 hue : ℚ) : ℚ :=
  let hue := pyMod1 hue
  if hue < 1/6 then m1 + (m2 - m1) * hue * 6
  else if hue < 1/2 then m2
  else if hue < 2/3 then m1 + (m2 - m1) * (2/3 - hue) * 6
  else m1

/-- CPython `colorsys.hls_to_rgb`. -/
def hls_to_rgb (h l s : ℚ) : ℚ × ℚ × ℚ :=
  if s = 0 then (l, l, l)
  else
    let m2 := if l ≤ 1/2 then l * (1 + s) else l + s - l * s
    let m1 := 2 * l - m2
    (colorsysV m1 m2 (h + 1/3), colorsysV m1 m2 h, colorsysV m1 m2 (h - 1/3))

/-- CPython `colorsys.rgb_to_hsv`. -/
def rgb_to_hsv (r g b : ℚ) : ℚ × ℚ × ℚ :=
  let maxc := max r (max g b)
  let minc := min r (min g b)
  let v := maxc
  if minc = maxc then (0, 0, v)
  else
    let s := (maxc - minc) / maxc
    let rc := (maxc - r) / (maxc - minc)
    let gc := (maxc - g) / (maxc - minc)
    let bc := (maxc - b) / (maxc - minc)
    let h := if r = maxc then bc - gc
             else if g = maxc then 2 + rc - bc
             else 4 + gc - rc
    (pyMod1 (h / 6), s, v)

/-- CPython `colorsys.hsv_to_rgb`. -/
def hsv_to_rgb (h s v : ℚ) : ℚ × ℚ × ℚ :=
  if s = 0 then (v, v, v)
  else
    let i0 := pyInt (h * 6)
    let f := h * 6 - (i0 : ℚ)
    let p := v * (1 - s)
    let q := v * (1 - s * f)
    let t := v * (1 - s * (1 - f))
    let i := Int.emod i0 6
    if i = 0 then (v, t, p)
    else if i = 1 then (q, v, p)
    else if i = 2 then (p, v, t)
    else if i = 3 then (p, q, v)
    else if i = 4 then (t, p, v)
    else (v, p, q)

/-! ### `util.py` constants and conversions -/

def RGB_CHANNEL_SCALE : ℚ := 1 / 255
def HUE_SCALE : ℚ := 1 / 360
def SCALE_PERCENT : ℚ := 1 / 100
def CONVERT_TURN : ℚ := 360
def CONVERT_GRAD : ℚ := 90 / 100

def CS_RGB : ℕ := 0
def CS_HSL : ℕ := 1
def CS_HWB : ℕ := 2

def OP_NULL : ℕ := 0
def OP_SCALE : ℕ := 1
def OP_ADD : ℕ := 2
def OP_SUB : ℕ := 3

/-- Modelled from the spec: `util.HSL_WORKAROUND` reads the host version via
`sublime.version()`; the spec directs that this host quirk be a boolean
configuration flag, default off. -/
def HSL_WORKAROUND : Bool := false

/-- Embeds `util.rgb_to_hsl`: swaps the `(h, l, s)` result of `colorsys.rgb_to_hls` into
`(h, s, l)`. -/
def rgb_to_hsl (r g b : ℚ) : ℚ × ℚ × ℚ :=
  let (h, l, s) := rgb_to_hls r g b
  (h, s, l)

/-- Embeds `util.hsl_to_rgb`. -/
def hsl_to_rgb (h s l : ℚ) : ℚ × ℚ × ℚ := hls_to_rgb h l s

/-- Embeds `util.hwb_to_rgb`.  Python float division raises `ZeroDivisionError` when
the divisor `1.0 - b` is zero, which the code does not guard; the branch is
modelled explicitly. -/
def hwb_to_rgb (h w b : ℚ) : Except PyErr (ℚ × ℚ × ℚ) :=
  let (w, b) := if w + b > 1 then
      let normFactor := 1 / (w + b)
      (w * normFactor, b * normFactor)
    else (w, b)
  if (1 : ℚ) - b = 0 then .error .zeroDivisionError
  else
    let s := 1 - w / (1 - b)
    let v := 1 - b
    let (r, g, b2) := hsv_to_rgb h s v
    .ok (clamp r 0 1, clamp g 0 1, clamp b2 0 1)

/-- Embeds `util.rgb_to_hwb`. -/
def rgb_to_hwb (r g b : ℚ) : ℚ × ℚ × ℚ :=
  let (h, s, v) := rgb_to_hsv r g b
  (h, (1 - s) * v, 1 - v)

/-- Embeds `util.hsl_to_hwb`. -/
def hsl_to_hwb (h s l : ℚ) : ℚ × ℚ × ℚ :=
  let (r, g, b) := hsl_to_rgb h s l
  rgb_to_hwb r g b

/-- Embeds `util.hwb_to_hsl`.  The body converts `hwb → rgb` and then calls
`rgb_to_hwb` — not `rgb_to_hsl` — on the result; the transcription preserves
that call exactly as written at `util.py:90`. -/
def hwb_to_hsl (h w b : ℚ) : Except PyErr (ℚ × ℚ × ℚ) := do
  let (r, g, b2) ← hwb_to_rgb h w b
  pure (rgb_to_hwb r g b2)

/-- Embeds `util.rgb_blend_channel`. -/
def rgb_blend_channel (c1 c2 f : ℚ) : ℚ :=
  clamp |c1 * f + c2 * (1 - f)| 0 1

/-- Embeds `util.percent_blend_channel`. -/
def percent_blend_channel (c1 c2 f : ℚ) : ℚ :=
  clamp |c1 * f + c2 * (1 - f)| 0 1

/-- Fuelled embedding of the loop `while value > 360.0: value -= 360.0` in
`util.hue_blend_channel`. -/
def hue360DownF : ℕ → ℚ → ℚ
  | 0, v => v
  | n + 1, v => if v > 360 then hue360DownF n (v - 360) else v

/-- Embeds `util.hue_blend_channel`.  The fuel `value.num.toNat + 1` dominates the
number of loop iterations, so the fuelled loop agrees with the Python
`while`. -/
def hue_blend_channel (c1 c2 f : ℚ) : ℚ :=
  let c1 := c1 * 360
  let c2 := c2 * 360
  let (c1, c2) := if |c1 - c2| > 180 then
      (if c1 < c2 then (c1 + 360, c2) else (c1, c2 + 360))
    else (c1, c2)
  let f := if HSL_WORKAROUND then 1 - f else f
  let value := |c1 * f + c2 * (1 - f)|
  let value := hue360DownF (value.num.toNat + 1) value
  value * HUE_SCALE

/-- Embeds `util.mix_channel`. -/
def mix_channel (cf af cb ab : ℚ) : ℚ :=
  clamp |cf * (af * 1) + cb * (ab * 1) * (1 - af * 1)| 0 1

/-! ### String helpers

All string processing is done on `List Char` so every definition reduces in
the kernel. -/

/-- Python `\s` for the ASCII range (the only characters the color grammar
can feed to the splitter). -/
def isPyWs (c : Char) : Bool :=
  c = ' ' || c = '\t' || c = '\n' || c = '\x0d' || c = '\x0b' || c = '\x0c'

/-- Embeds `str.strip()` with the default whitespace characters, on both ends. -/
def stripWsL (s : List Char) : List Char :=
  ((s.dropWhile isPyWs).reverse.dropWhile isPyWs).reverse

/-- Embeds `str.strip('%')`: remove leading and trailing percent signs. -/
def stripPctL (s : List Char) : List Char :=
  ((s.dropWhile (· = '%')).reverse.dropWhile (· = '%')).reverse

def endsWithL (suffix s : List Char) : Bool := suffix.isSuffixOf s

def startsWithL (pre s : List Char) : Bool := pre.isPrefixOf s

/-- Numeric value of a digit run (empty runs count as 0, as in `0 + frac`). -/
def natFromDigits (l : List Char) : ℕ :=
  l.foldl (fun acc c => acc * 10 + (c.toNat - 48)) 0

def hexDigitVal (c : Char) : ℕ :=
  if 48 ≤ c.toNat ∧ c.toNat ≤ 57 then c.toNat - 48
  else if 97 ≤ c.toNat ∧ c.toNat ≤ 102 then c.toNat - 87
  else if 65 ≤ c.toNat ∧ c.toNat ≤ 70 then c.toNat - 55
  else 0

/-- Embeds `int(s, 16)` on a hex digit run. -/
def natFromHex (l : List Char) : ℕ :=
  l.foldl (fun acc c => acc * 16 + hexDigitVal c) 0

/-- Unsigned part of Python `float(s)`: digits with an optional fractional
part (the grammar never produces exponent forms). -/
def parseUnsignedFloat (s : List Char) : Option ℚ :=
  let intPart := s.takeWhile Char.isDigit
  let rest := s.dropWhile Char.isDigit
  match rest with
  | [] => if intPart.isEmpty then none else some (natFromDigits intPart : ℚ)
  | '.' :: fr =>
      if fr.all Char.isDigit && (!intPart.isEmpty || !fr.isEmpty) then
        some ((natFromDigits intPart : ℚ) + (natFromDigits fr : ℚ) / (10 : ℚ) ^ fr.length)
      else none
  | _ => none

/-- Python `float(s)`; raises `ValueError` on a malformed literal. -/
def pyFloat (s : List Char) : Except PyErr ℚ :=
  let parsed := match s with
    | '+' :: r => parseUnsignedFloat r
    | '-' :: r => (parseUnsignedFloat r).map (fun q => -q)
    | _ => parseUnsignedFloat s
  match parsed with
  | some q => .ok q
  | none => .error .valueError

/-- Embeds `re.split` with `util.RE_CHAN_SPLIT` (`(?:\s*[,/]\s*|\s+)`): if a
separator starts at the current position, return the remainder after it.
The first alternative matches whitespace up to a comma or slash plus
trailing whitespace; otherwise a nonempty whitespace run matches. -/
def chanSepSplitAt (s : List Char) : Option (List Char) :=
  let ws1 := s.dropWhile isPyWs
  match ws1 with
  | c :: r =>
      if c = ',' || c = '/' then some (r.dropWhile isPyWs)
      else if ws1.length < s.length then some ws1 else none
  | [] => if ws1.length < s.length then some ws1 else none

/-- Fuelled splitter loop; every step consumes at least one character, so
fuel `s.length + 1` is sufficient. -/
def chanSplitF : ℕ → List Char → List Char → List String
  | 0, s, acc => [String.mk (acc.reverse ++ s)]
  | n + 1, s, acc =>
      match chanSepSplitAt s with
      | some rest => String.mk acc.reverse :: chanSplitF n rest []
      | none =>
          match s with
          | [] => [String.mk acc.reverse]
          | c :: r => chanSplitF n r (c :: acc)

/-- Embeds `util.RE_CHAN_SPLIT.split(s)`. -/
def chanSplit (s : String) : List String :=
  chanSplitF (s.data.length + 1) s.data []

/-! ### `util.py` channel normalization -/

/-- Embeds `util.norm_perc_channel`. -/
def norm_perc_channel (value : String) : Except PyErr ℚ := do
  let v ← pyFloat (stripPctL value.data)
  pure (clamp v 0 100 * SCALE_PERCENT)

/-- Embeds `util.norm_rgb_channel`. -/
def norm_rgb_channel (value : String) : Except PyErr ℚ :=
  if endsWithL ['%'] value.data then norm_perc_channel value
  else do
    let v ← pyFloat value.data
    pure (clamp v 0 255 * RGB_CHANNEL_SCALE)

/-- Embeds `util.norm_alpha_channel`. -/
def norm_alpha_channel (value : String) : Except PyErr ℚ :=
  if endsWithL ['%'] value.data then norm_perc_channel value
  else do
    let v ← pyFloat value.data
    pure (clamp v 0 1)

/-- Embeds `util.norm_hex_channel`. -/
def norm_hex_channel (value : String) : ℚ :=
  (natFromHex value.data : ℚ) * RGB_CHANNEL_SCALE

/-- Embeds `util.norm_angle`.  The `rad` branch calls `math.degrees`, but `util.py`
never imports `math`, so that branch raises `NameError`; the second
`grad` branch in the source is dead (the first `grad` test shadows it). -/
def norm_angle (angle : String) : Except PyErr ℚ :=
  let s := angle.data
  if endsWithL ['t','u','r','n'] s then do
    let v ← pyFloat (s.dropLast.dropLast.dropLast.dropLast)
    pure (v * CONVERT_TURN)
  else if endsWithL ['g','r','a','d'] s then do
    let v ← pyFloat (s.dropLast.dropLast.dropLast.dropLast)
    pure (v * CONVERT_GRAD)
  else if endsWithL ['r','a','d'] s then
    .error (.nameError "math")
  else if endsWithL ['d','e','g'] s then
    pyFloat (s.dropLast.dropLast.dropLast)
  else
    pyFloat s

/-- Embeds `util.norm_hue_channel`. -/
def norm_hue_channel (value : String) : Except PyErr ℚ := do
  let v ← norm_angle value
  pure (clamp v 0 360 * HUE_SCALE)

/-! ### `util.fmt_float` -/

/-- The module `util.py` (line 25) binds the float-trim pattern to the name
`RE_FLOAT_TRIM_RE`; the name `RE_FLOAT_TRIM` that `fmt_float` reads at line
174 is bound nowhere in the module, so the read raises `NameError`. -/
def utilReFloatTrimBound : Bool := false

def natStr (n : ℕ) : String := String.mk (Nat.toDigits 10 n)

def intStr (i : ℤ) : String :=
  if i < 0 then "-" ++ natStr i.natAbs else natStr i.natAbs

/-- Left-pad a digit string with zeros to width `p`. -/
def padZeros (p : ℕ) (l : List Char) : List Char :=
  List.replicate (p - l.length) '0' ++ l

/-- Embeds the rendering `str(decimal.Decimal(f).quantize(Decimal('0.' + '0'*p), ROUND_HALF_UP))`
for `p > 0`, and `str(... quantize(Decimal('0'), ...))` for `p = 0`.  The
binary-float-to-decimal noise of `Decimal(f)` does not arise because the
embedding carries exact rationals. -/
def fmtFloatRender (f : ℚ) (p : ℕ) : String :=
  let n := roundHalfUpScaled f p
  let sign := if n < 0 then "-" else ""
  if p = 0 then sign ++ natStr n.natAbs
  else
    let ip := n.natAbs / 10 ^ p
    let fp := n.natAbs % 10 ^ p
    sign ++ natStr ip ++ "." ++ String.mk (padZeros p (Nat.toDigits 10 fp))

/-- The trim performed by `util.RE_FLOAT_TRIM_RE`
(`^(?P<keep>\d+)(?P<trash>\.0+|(?P<keep2>\.\d*[1-9])0+)$`): strip trailing
fractional zeros, dropping a bare decimal point; leave non-matching strings
unchanged. -/
def trimFloatString (s : String) : String :=
  let l := s.data
  let ip := l.takeWhile Char.isDigit
  match l.dropWhile Char.isDigit with
  | '.' :: fr =>
      if ip.isEmpty || fr.isEmpty || !fr.all Char.isDigit then s
      else
        let kept := (fr.reverse.dropWhile (· = '0')).reverse
        if kept.length = fr.length then s
        else if kept.isEmpty then String.mk ip
        else String.mk (ip ++ '.' :: kept)
  | _ => s

/-- Embeds `util.fmt_float`.  The quantized string is computed first (line 170),
then the match against the unbound name `RE_FLOAT_TRIM` raises. -/
def fmt_float (f : ℚ) (p : ℕ) : Except PyErr String :=
  let string := fmtFloatRender f p
  if utilReFloatTrimBound then .ok (trimFloatString string)
  else .error (.nameError "RE_FLOAT_TRIM")

/-! ### The CSS grammar patterns

The compiled regular expressions `CSS_MATCH` (one per color class) and
`HEX_MATCH` are embedded as nondeterministic matchers: a `Matcher` maps an
input character list to the list of suffixes reachable by consuming one
match of the pattern.  A whole-string match exists iff the empty suffix is
reachable; a prefix match (`re.match`) iff any suffix is reachable. -/

def Matcher : Type := List Char → List (List Char)

def mEps : Matcher := fun s => [s]

def mChar (p : Char → Bool) : Matcher := fun s =>
  match s with
  | [] => []
  | c :: r => if p c then [r] else []

def mSeq (p q : Matcher) : Matcher := fun s => (p s).flatMap q

def mAlt (p q : Matcher) : Matcher := fun s => p s ++ q s

def mOpt (p : Matcher) : Matcher := fun s => s :: p s

/-- Kleene star with fuel; each iteration must consume at least one
character (all starred subpatterns here are single-character classes), so
fuel `s.length` is exact. -/
def mStarF (p : Matcher) : ℕ → Matcher
  | 0 => fun s => [s]
  | n + 1 => fun s =>
      s :: ((p s).filter (fun t => t.length < s.length)).flatMap (mStarF p n)

def mStar (p : Matcher) : Matcher := fun s => mStarF p s.length s

def mPlus (p : Matcher) : Matcher := mSeq p (mStar p)

def mRep (p : Matcher) : ℕ → Matcher
  | 0 => mEps
  | n + 1 => mSeq p (mRep p n)

/-- Case-insensitive literal (the patterns carry the `i` flag). -/
def mLitCI (cs : List Char) : Matcher :=
  cs.foldr (fun c acc => mSeq (mChar (fun x => x.toLower = c.toLower)) acc) mEps

/-- Embeds the token `{hex}` = `[a-f0-9]` under the `i` flag. -/
def isHexCI (c : Char) : Bool :=
  c.isDigit || ('a' ≤ c && c ≤ 'f') || ('A' ≤ c && c ≤ 'F')

/-- Embeds the token `{float}` = `[+\-]?(?:(?:[0-9]*\.[0-9]+)|[0-9]+)`. -/
def pFloatPat : Matcher :=
  mSeq (mOpt (mChar (fun c => c = '+' || c = '-')))
    (mAlt
      (mSeq (mStar (mChar Char.isDigit))
        (mSeq (mChar (· = '.')) (mPlus (mChar Char.isDigit))))
      (mPlus (mChar Char.isDigit)))

/-- Embeds the token `{percent}` = the float pattern followed by `%`. -/
def pPercentPat : Matcher := mSeq pFloatPat (mChar (· = '%'))

/-- Embeds the token `{angle}` = the float pattern with an optional `deg|rad|turn|grad`
suffix. -/
def pAnglePat : Matcher :=
  mSeq pFloatPat
    (mOpt (mAlt (mLitCI ['d','e','g'])
      (mAlt (mLitCI ['r','a','d'])
        (mAlt (mLitCI ['t','u','r','n']) (mLitCI ['g','r','a','d'])))))

/-- Embeds the token `{space}` = `\s+`. -/
def pSpaceP : Matcher := mPlus (mChar isPyWs)

/-- Embeds the token `{comma}` = `\s*,\s*`. -/
def pCommaP : Matcher :=
  mSeq (mStar (mChar isPyWs)) (mSeq (mChar (· = ',')) (mStar (mChar isPyWs)))

/-- Embeds the token `{slash}` = `\s*/\s*`. -/
def pSlashP : Matcher :=
  mSeq (mStar (mChar isPyWs)) (mSeq (mChar (· = '/')) (mStar (mChar isPyWs)))

/-- Space-separated `rgb()` body with optional slash alpha. -/
def pRgbBodySpace : Matcher :=
  mSeq
    (mAlt (mSeq (mRep (mSeq pFloatPat pSpaceP) 2) pFloatPat)
      (mSeq (mRep (mSeq pPercentPat pSpaceP) 2) pPercentPat))
    (mOpt (mSeq pSlashP (mAlt pPercentPat pFloatPat)))

/-- Comma-separated `rgb()` body with optional comma alpha. -/
def pRgbBodyComma : Matcher :=
  mSeq
    (mAlt (mSeq (mRep (mSeq pFloatPat pCommaP) 2) pFloatPat)
      (mSeq (mRep (mSeq pPercentPat pCommaP) 2) pPercentPat))
    (mOpt (mSeq pCommaP (mAlt pPercentPat pFloatPat)))

/-- The `rgba?\(\s* ... \s*\)` alternative of `_RGB.CSS_MATCH`. -/
def pRgbFunc : Matcher :=
  mSeq (mLitCI ['r','g','b'])
    (mSeq (mOpt (mChar (fun c => c.toLower = 'a')))
      (mSeq (mChar (· = '('))
        (mSeq (mStar (mChar isPyWs))
          (mSeq (mAlt pRgbBodySpace pRgbBodyComma)
            (mSeq (mStar (mChar isPyWs)) (mChar (· = ')')))))))

/-- The hex alternative `\#(?:{hex}{6}(?:{hex}{2})?|{hex}{3}(?:{hex})?)`,
also the body of `_RGB.HEX_MATCH`.  Every group is non-capturing. -/
def pHexBody : Matcher :=
  mSeq (mChar (· = '#'))
    (mAlt (mSeq (mRep (mChar isHexCI) 6) (mOpt (mRep (mChar isHexCI) 2)))
      (mSeq (mRep (mChar isHexCI) 3) (mOpt (mChar isHexCI))))

/-- Embeds `_RGB.CSS_MATCH.match(s)` — anchored `^...$`, so a whole-string test. -/
def cssMatchRGBPat (s : String) : Bool :=
  ((mAlt pRgbFunc pHexBody) s.data).any List.isEmpty

/-- Embeds the `hsl()`/`hwb()` function body: angle, two percents, optional alpha, in
space- or comma-separated layout. -/
def pHueFuncBody : Matcher :=
  mAlt
    (mSeq pAnglePat
      (mSeq pSpaceP (mSeq pPercentPat (mSeq pSpaceP (mSeq pPercentPat
        (mOpt (mSeq pSlashP (mAlt pPercentPat pFloatPat))))))))
    (mSeq pAnglePat
      (mSeq pCommaP (mSeq pPercentPat (mSeq pCommaP (mSeq pPercentPat
        (mOpt (mSeq pCommaP (mAlt pPercentPat pFloatPat))))))))

/-- Embeds `_HSL.CSS_MATCH.match(s)` — `^hsla?\(\s* body \s*\)$`. -/
def cssMatchHSLPat (s : String) : Bool :=
  ((mSeq (mLitCI ['h','s','l'])
    (mSeq (mOpt (mChar (fun c => c.toLower = 'a')))
      (mSeq (mChar (· = '('))
        (mSeq (mStar (mChar isPyWs))
          (mSeq pHueFuncBody
            (mSeq (mStar (mChar isPyWs)) (mChar (· = ')')))))))) s.data).any
    List.isEmpty

/-- Embeds `_HWB.CSS_MATCH.match(s)` — `^hwb?\(\s* body \s*\)$` (the `?` in the
source makes the final `b` optional). -/
def cssMatchHWBPat (s : String) : Bool :=
  ((mSeq (mLitCI ['h','w'])
    (mSeq (mOpt (mChar (fun c => c.toLower = 'b')))
      (mSeq (mChar (· = '('))
        (mSeq (mStar (mChar isPyWs))
          (mSeq pHueFuncBody
            (mSeq (mStar (mChar isPyWs)) (mChar (· = ')')))))))) s.data).any
    List.isEmpty

/-- A Python `re` match object: the list of captured groups, in order.
`group(n)` for `n ≥ 1` reads entry `n - 1`; reading past the end raises
`IndexError` (`no such group`). -/
structure PyMatch where
  groups : List (Option String)
  deriving DecidableEq, Repr

/-- Embeds the read `m.group(n)` for `n ≥ 1` (the code never asks for group 0). -/
def PyMatch.group (m : PyMatch) (n : ℕ) : Except PyErr (Option String) :=
  match m.groups.get? (n - 1) with
  | some g => .ok g
  | none => .error .indexError

/-- Embeds `_RGB.HEX_MATCH.match(s)` — an unanchored prefix match.  The pattern
`(?i)#(?:{hex}{6}(?:{hex}{2})?|{hex}{3}(?:{hex})?)` contains only
non-capturing `(?:...)` groups, so a successful match object carries an
empty capture list. -/
def hexMatch (s : String) : Option PyMatch :=
  if (pHexBody s.data).isEmpty then none else some ⟨[]⟩

/-! ### Color values and constructors -/

/-- The channel tuple of the RGB variant (`_c1.._c3` and alpha `_c0`). -/
structure RGBc where
  r : ℚ
  g : ℚ
  b : ℚ
  a : ℚ
  deriving DecidableEq, Repr

/-- The channel tuple of the HSL variant. -/
structure HSLc where
  h : ℚ
  s : ℚ
  l : ℚ
  a : ℚ
  deriving DecidableEq, Repr

/-- The channel tuple of the HWB variant. -/
structure HWBc where
  h : ℚ
  w : ℚ
  b : ℚ
  a : ℚ
  deriving DecidableEq, Repr

/-- The tagged union of the three public color classes. -/
inductive ColorV where
  | rgb : RGBc → ColorV
  | hsl : HSLc → ColorV
  | hwb : HWBc → ColorV
  deriving DecidableEq, Repr

/-- The kinds of Python values a constructor can receive: a color object, a
string, a list/tuple of numbers, or `None` (which matches no `isinstance`
test and falls through to the `TypeError`). -/
inductive PyValue where
  | vcolor : ColorV → PyValue
  | vstr : String → PyValue
  | vlist : List ℚ → PyValue
  | vnone : PyValue
  deriving DecidableEq, Repr

/-! The channel property setters.  Every setter stores
`util.clamp(value, 0.0, 1.0)` (`rgb.py` 52–80, `hsl.py` 32–60,
`hwb.py` 32–60, `base.py` 19–23). -/

def RGBc.setR (c : RGBc) (value : ℚ) : RGBc := { c with r := clamp value 0 1 }
def RGBc.setG (c : RGBc) (value : ℚ) : RGBc := { c with g := clamp value 0 1 }
def RGBc.setB (c : RGBc) (value : ℚ) : RGBc := { c with b := clamp value 0 1 }
def RGBc.setA (c : RGBc) (value : ℚ) : RGBc := { c with a := clamp value 0 1 }
def HSLc.setH (c : HSLc) (value : ℚ) : HSLc := { c with h := clamp value 0 1 }
def HSLc.setS (c : HSLc) (value : ℚ) : HSLc := { c with s := clamp value 0 1 }
def HSLc.setL (c : HSLc) (value : ℚ) : HSLc := { c with l := clamp value 0 1 }
def HSLc.setA (c : HSLc) (value : ℚ) : HSLc := { c with a := clamp value 0 1 }
def HWBc.setH (c : HWBc) (value : ℚ) : HWBc := { c with h := clamp value 0 1 }
def HWBc.setW (c : HWBc) (value : ℚ) : HWBc := { c with w := clamp value 0 1 }
def HWBc.setB (c : HWBc) (value : ℚ) : HWBc := { c with b := clamp value 0 1 }
def HWBc.setA (c : HWBc) (value : ℚ) : HWBc := { c with a := clamp value 0 1 }

/-- Embeds `_RGB.DEF_BG`. -/
def rgbDefBg : String := "rgb(0 0 0 / 1)"
/-- Embeds `_HSL.DEF_BG`. -/
def hslDefBg : String := "hsl(0 0% 0% / 1.0)"
/-- Embeds `_HWB.DEF_BG`. -/
def hwbDefBg : String := "hwb(0 0% 0% / 1.0)"

/-- Embeds `_RGB._split_channels`.  In the hex branch the code reads `m.group(1)`
from the group-free `HEX_MATCH` match, raising `IndexError`; the 3-digit
sub-branch additionally reads the unbound name `r` (`m.group(r)`), raising
`NameError`. -/
def rgb_split_channels (color : String) : Except PyErr (List ℚ) :=
  if startsWithL ['r','g','b'] color.data then do
    let start := if startsWithL ['r','g','b','a'] color.data then 5 else 4
    let inner := String.mk (stripWsL ((color.data.drop start).dropLast))
    let channels ← (chanSplit inner).enum.mapM (fun ic =>
      if ic.1 = 3 then norm_alpha_channel ic.2 else norm_rgb_channel ic.2)
    pure (if channels.length = 3 then channels ++ [1] else channels)
  else
    match hexMatch color with
    | none => .error .assertionError
    | some m => do
      let g1 ← m.group 1
      if (match g1 with | some s => !s.isEmpty | none => false) then do
        let c1 := (natFromHex ((color.data.drop 1).take 2) : ℚ) * RGB_CHANNEL_SCALE
        let c2 := (natFromHex ((color.data.drop 3).take 2) : ℚ) * RGB_CHANNEL_SCALE
        let c3 := (natFromHex ((color.data.drop 5).take 2) : ℚ) * RGB_CHANNEL_SCALE
        let g2 ← m.group 2
        let c4 := match g2 with
          | some s2 => if !s2.isEmpty then (natFromHex s2.data : ℚ) * RGB_CHANNEL_SCALE else 1
          | none => 1
        pure [c1, c2, c3, c4]
      else do
        let d1 := (color.data.drop 1).take 1
        let d2 := (color.data.drop 2).take 1
        let d3 := (color.data.drop 3).take 1
        let _ := [(natFromHex (d1 ++ d1) : ℚ) * RGB_CHANNEL_SCALE,
                  (natFromHex (d2 ++ d2) : ℚ) * RGB_CHANNEL_SCALE,
                  (natFromHex (d3 ++ d3) : ℚ) * RGB_CHANNEL_SCALE]
        .error (.nameError "r")

/-- Embeds `_HSL._split_channels`. -/
def hsl_split_channels (color : String) : Except PyErr (List ℚ) := do
  let start := if startsWithL ['h','s','l','a'] color.data then 5 else 4
  let inner := String.mk (stripWsL ((color.data.drop start).dropLast))
  let channels ← (chanSplit inner).enum.mapM (fun ic =>
    if ic.1 = 0 then norm_hue_channel ic.2
    else if ic.1 = 3 then norm_alpha_channel ic.2
    else norm_perc_channel ic.2)
  pure (if channels.length = 3 then channels ++ [1] else channels)

/-- Embeds `_HWB._split_channels`. -/
def hwb_split_channels (color : String) : Except PyErr (List ℚ) := do
  let inner := String.mk (stripWsL ((color.data.drop 4).dropLast))
  let channels ← (chanSplit inner).enum.mapM (fun ic =>
    if ic.1 = 0 then norm_hue_channel ic.2
    else if ic.1 = 3 then norm_alpha_channel ic.2
    else norm_perc_channel ic.2)
  pure (if channels.length = 3 then channels ++ [1] else channels)

/-- Modelled from the spec: `css_names.name2hex`, the static CSS named-color
lookup (module `css_names.py` is not among the sources; the spec specifies
`name_to_hex(name) -> Optional<HexString>`).  Only the entry needed to
discuss the spec examples is materialized; no theorem below consults the
table. -/
def name2hex (s : String) : Option String :=
  if s = "red" then some "#ff0000" else none

/-- Modelled from the spec: `css_names.hex2name`, the inverse lookup. -/
def hex2name (h : String) : Option String :=
  if h = "#FF0000" then some "red" else none

/-- Embeds `_RGB.css_match`. -/
def rgb_css_match (string : String) : Except PyErr (Option (List ℚ)) :=
  if cssMatchRGBPat string then (rgb_split_channels string).map some
  else
    match name2hex string with
    | some hx => (rgb_split_channels hx).map some
    | none => .ok none

/-- Embeds `_HSL.css_match`. -/
def hsl_css_match (string : String) : Except PyErr (Option (List ℚ)) :=
  if cssMatchHSLPat string then (hsl_split_channels string).map some
  else .ok none

/-- Embeds `_HWB.css_match` (the `else` branch is a bare `None` expression, i.e. the
method returns `None`). -/
def hwb_css_match (string : String) : Except PyErr (Option (List ℚ)) :=
  if cssMatchHWBPat string then (hwb_split_channels string).map some
  else .ok none

/-- Embeds `RGB.__init__`.  All channel assignments go through the clamping
property setters.  The line `if color is None: color = self.DEF_BG` of the source
sits inside the `isinstance(color, str)` branch, where `color` is a `str`
and never `None`, so the defaulting line is dead and is not modelled; an
actual `None` argument reaches the final `else` and raises `TypeError`. -/
def RGB_new (color : PyValue) : Except PyErr RGBc :=
  match color with
  | .vcolor (.rgb c) =>
      .ok ⟨clamp c.r 0 1, clamp c.g 0 1, clamp c.b 0 1, clamp c.a 0 1⟩
  | .vcolor (.hsl c) =>
      let t := hsl_to_rgb c.h c.s c.l
      .ok ⟨clamp t.1 0 1, clamp t.2.1 0 1, clamp t.2.2 0 1, clamp c.a 0 1⟩
  | .vcolor (.hwb c) => do
      let (r, g, b) ← hwb_to_rgb c.h c.w c.b
      pure ⟨clamp r 0 1, clamp g 0 1, clamp b 0 1, clamp c.a 0 1⟩
  | .vstr s => do
      match ← rgb_css_match s with
      | none => .error .valueError
      | some [r, g, b, a] =>
          pure ⟨clamp r 0 1, clamp g 0 1, clamp b 0 1, clamp a 0 1⟩
      | some _ => .error .valueError
  | .vlist l =>
      match l with
      | [r, g, b] => .ok ⟨clamp r 0 1, clamp g 0 1, clamp b 0 1, clamp 1 0 1⟩
      | [r, g, b, a] => .ok ⟨clamp r 0 1, clamp g 0 1, clamp b 0 1, clamp a 0 1⟩
      | _ => .error .valueError
  | .vnone => .error .typeError

/-- Embeds `HSL.__init__`.  The HWB branch calls `util.hwb_to_hsl` (which in fact
returns an HWB triple, see `hwb_to_hsl`). -/
def HSL_new (color : PyValue) : Except PyErr HSLc :=
  match color with
  | .vcolor (.hsl c) =>
      .ok ⟨clamp c.h 0 1, clamp c.s 0 1, clamp c.l 0 1, clamp c.a 0 1⟩
  | .vcolor (.rgb c) =>
      let t := rgb_to_hsl c.r c.g c.b
      .ok ⟨clamp t.1 0 1, clamp t.2.1 0 1, clamp t.2.2 0 1, clamp c.a 0 1⟩
  | .vcolor (.hwb c) => do
      let (h, s, l) ← hwb_to_hsl c.h c.w c.b
      pure ⟨clamp h 0 1, clamp s 0 1, clamp l 0 1, clamp c.a 0 1⟩
  | .vstr s => do
      match ← hsl_css_match s with
      | none => .error .valueError
      | some [h, sa, l, a] =>
          pure ⟨clamp h 0 1, clamp sa 0 1, clamp l 0 1, clamp a 0 1⟩
      | some _ => .error .valueError
  | .vlist l =>
      match l with
      | [h, s, li] => .ok ⟨clamp h 0 1, clamp s 0 1, clamp li 0 1, clamp 1 0 1⟩
      | [h, s, li, a] => .ok ⟨clamp h 0 1, clamp s 0 1, clamp li 0 1, clamp a 0 1⟩
      | _ => .error .valueError
  | .vnone => .error .typeError

/-- Embeds `HWB.__init__`. -/
def HWB_new (color : PyValue) : Except PyErr HWBc :=
  match color with
  | .vcolor (.hwb c) =>
      .ok ⟨clamp c.h 0 1, clamp c.w 0 1, clamp c.b 0 1, clamp c.a 0 1⟩
  | .vcolor (.rgb c) =>
      let t := rgb_to_hwb c.r c.g c.b
      .ok ⟨clamp t.1 0 1, clamp t.2.1 0 1, clamp t.2.2 0 1, clamp c.a 0 1⟩
  | .vcolor (.hsl c) =>
      let t := hsl_to_hwb c.h c.s c.l
      .ok ⟨clamp t.1 0 1, clamp t.2.1 0 1, clamp t.2.2 0 1, clamp c.a 0 1⟩
  | .vstr s => do
      match ← hwb_css_match s with
      | none => .error .valueError
      | some [h, w, b, a] =>
          pure ⟨clamp h 0 1, clamp w 0 1, clamp b 0 1, clamp a 0 1⟩
      | some _ => .error .valueError
  | .vlist l =>
      match l with
      | [h, w, b] => .ok ⟨clamp h 0 1, clamp w 0 1, clamp b 0 1, clamp 1 0 1⟩
      | [h, w, b, a] => .ok ⟨clamp h 0 1, clamp w 0 1, clamp b 0 1, clamp a 0 1⟩
      | _ => .error .valueError
  | .vnone => .error .typeError

/-- Embeds `css_color(string)` — the parse entry point: tries the RGB, HSL and HWB
grammars in that order, constructing the first class whose `css_match`
returns channels; raises `ValueError` when none matches. -/
def css_color (string : String) : Except PyErr ColorV := do
  match ← rgb_css_match string with
  | some value => (RGB_new (.vlist value)).map .rgb
  | none =>
    match ← hsl_css_match string with
    | some value => (HSL_new (.vlist value)).map .hsl
    | none =>
      match ← hwb_css_match string with
      | some value => (HWB_new (.vlist value)).map .hwb
      | none => .error .valueError

/-! ### `base.py` operations -/

/-- Embeds `_ColorBase.update_from`: a source of a different variant is first
converted through the constructor of that variant, then `_c1.._c3` are copied
directly and alpha goes through its clamping setter.  The `self is obj`
aliasing shortcut yields the same channels as the copy and needs no separate
case in a value-level model. -/
def update_from (self obj : ColorV) : Except PyErr ColorV :=
  match self with
  | .rgb _ => do
      let o ← match obj with
        | .rgb c => pure c
        | _ => RGB_new (.vcolor obj)
      pure (.rgb ⟨o.r, o.g, o.b, clamp o.a 0 1⟩)
  | .hsl _ => do
      let o ← match obj with
        | .hsl c => pure c
        | _ => HSL_new (.vcolor obj)
      pure (.hsl ⟨o.h, o.s, o.l, clamp o.a 0 1⟩)
  | .hwb _ => do
      let o ← match obj with
        | .hwb c => pure c
        | _ => HWB_new (.vcolor obj)
      pure (.hwb ⟨o.h, o.w, o.b, clamp o.a 0 1⟩)

/-- The background resolution step of `_ColorBase.apply_alpha` on an RGB
subject: no background means `RGB(RGB.DEF_BG)`, a non-RGB background is
converted. -/
def rgbBackground (background : Option ColorV) : Except PyErr RGBc :=
  match background with
  | none => RGB_new (.vstr rgbDefBg)
  | some (.rgb b) => pure b
  | some v => RGB_new (.vcolor v)

/-- Background resolution of `apply_alpha` on an HSL subject. -/
def hslBackground (background : Option ColorV) : Except PyErr HSLc :=
  match background with
  | none => HSL_new (.vstr hslDefBg)
  | some (.hsl b) => pure b
  | some v => HSL_new (.vcolor v)

/-- Background resolution of `apply_alpha` on an HWB subject. -/
def hwbBackground (background : Option ColorV) : Except PyErr HWBc :=
  match background with
  | none => HWB_new (.vstr hwbDefBg)
  | some (.hwb b) => pure b
  | some v => HWB_new (.vcolor v)

/-- Embeds `_ColorBase.apply_alpha` on an RGB subject: the background is resolved
first; then, only when `a < 1`, the three primary channels are mixed
(`_c1.._c3` are written directly, `mix_channel` clamps) and alpha is set to
1 through its setter. -/
def apply_alpha_rgb (c : RGBc) (background : Option ColorV) : Except PyErr RGBc := do
  let bg ← rgbBackground background
  if c.a < 1 then
    pure ⟨mix_channel c.r c.a bg.r bg.a, mix_channel c.g c.a bg.g bg.a,
          mix_channel c.b c.a bg.b bg.a, clamp 1 0 1⟩
  else pure c

/-- Embeds `apply_alpha` on an HSL subject. -/
def apply_alpha_hsl (c : HSLc) (background : Option ColorV) : Except PyErr HSLc := do
  let bg ← hslBackground background
  if c.a < 1 then
    pure ⟨mix_channel c.h c.a bg.h bg.a, mix_channel c.s c.a bg.s bg.a,
          mix_channel c.l c.a bg.l bg.a, clamp 1 0 1⟩
  else pure c

/-- Embeds `apply_alpha` on an HWB subject. -/
def apply_alpha_hwb (c : HWBc) (background : Option ColorV) : Except PyErr HWBc := do
  let bg ← hwbBackground background
  if c.a < 1 then
    pure ⟨mix_channel c.h c.a bg.h bg.a, mix_channel c.w c.a bg.w bg.a,
          mix_channel c.b c.a bg.b bg.a, clamp 1 0 1⟩
  else pure c

/-- The module `base.py` imports only `util`, so the bare names `OP_SCALE`/`OP_ADD`/
`OP_SUB` read by `_ColorBase.alpha` are unbound and the first comparison
raises `NameError`. -/
def baseOpNamesBound : Bool := false

/-- Embeds `_ColorBase.alpha` on an RGB value.  Calling it always raises
`NameError` (see `baseOpNamesBound`); the intended arithmetic is kept in the
dead branch. -/
def rgb_alpha_op (c : RGBc) (factor : ℚ) (op : ℕ) : Except PyErr RGBc :=
  if ¬ baseOpNamesBound then .error (.nameError "OP_SCALE")
  else if op = OP_SCALE then .ok (c.setA (c.a + 1 * factor - 1))
  else if op = OP_ADD then .ok (c.setA (c.a + c.a * factor))
  else if op = OP_SUB then .ok (c.setA (c.a - c.a * factor))
  else .ok (c.setA factor)

/-! ### Single-channel mutators (`rgb.py`, `hsl.py`, `hwb.py`) -/

/-- The `if/elif` chain that `_RGB.red`/`green`/`blue`, `_HSL.saturation`/
`lightness` and `_HWB.whiteness`/`blackness` each repeat verbatim before
storing the result through the clamping setter of the channel (`(1.0 * factor)`
in the RGB methods equals the bare `factor` of the HSL/HWB ones). -/
def chan_adjust (cur factor : ℚ) (op : ℕ) : ℚ :=
  if op = OP_SCALE then cur + 1 * factor - 1
  else if op = OP_ADD then cur + cur * factor
  else if op = OP_SUB then cur - cur * factor
  else factor

def RGBc.red (c : RGBc) (factor : ℚ) (op : ℕ) : RGBc :=
  c.setR (chan_adjust c.r factor op)

def RGBc.green (c : RGBc) (factor : ℚ) (op : ℕ) : RGBc :=
  c.setG (chan_adjust c.g factor op)

def RGBc.blue (c : RGBc) (factor : ℚ) (op : ℕ) : RGBc :=
  c.setB (chan_adjust c.b factor op)

def HSLc.saturation (c : HSLc) (factor : ℚ) (op : ℕ) : HSLc :=
  c.setS (chan_adjust c.s factor op)

def HSLc.lightness (c : HSLc) (factor : ℚ) (op : ℕ) : HSLc :=
  c.setL (chan_adjust c.l factor op)

def HWBc.whiteness (c : HWBc) (factor : ℚ) (op : ℕ) : HWBc :=
  c.setW (chan_adjust c.w factor op)

def HWBc.blackness (c : HWBc) (factor : ℚ) (op : ℕ) : HWBc :=
  c.setB (chan_adjust c.b factor op)

/-- Fuelled `while h > 1.0: h -= 1.0` of `_HSL.hue` / `_HWB.hue`. -/
def wrapDownF : ℕ → ℚ → ℚ
  | 0, h => h
  | n + 1, h => if h > 1 then wrapDownF n (h - 1) else h

/-- Fuelled `while h < 0.0: h += 1.0` of `_HSL.hue` / `_HWB.hue`. -/
def wrapUpF : ℕ → ℚ → ℚ
  | 0, h => h
  | n + 1, h => if h < 0 then wrapUpF n (h + 1) else h

/-- The two wrap loops in sequence.  A rational `q` satisfies
`q ≤ q.num.toNat + 1`, so both fuels dominate the loop iteration counts and
the fuelled loops agree with the Python `while` loops (see the `wrap`
lemmas below). -/
def hueWrap (h : ℚ) : ℚ :=
  let h1 := wrapDownF (h.num.toNat + 1) h
  wrapUpF ((-h1).num.toNat + 1) h1

/-- Embeds `_HSL.hue` (`hsl.py` 102–112): returns the mutated color and the value
the method returns. -/
def HSLc.hue (c : HSLc) (deg : ℚ) : HSLc × ℚ :=
  let d := deg * HUE_SCALE
  let h := hueWrap (c.h + d)
  (c.setH h, h)

/-- Embeds `_HWB.hue` (`hwb.py` 102–112), textually identical to `_HSL.hue`. -/
def HWBc.hue (c : HWBc) (deg : ℚ) : HWBc × ℚ :=
  let d := deg * HUE_SCALE
  let h := hueWrap (c.h + d)
  (c.setH h, h)

/-! ### `_ColorUtil` composite operations (`__init__.py`) -/

/-- The body of `_ColorUtil.get_luminance` once `RGB(self)` has been
built. -/
def luminance_calc (c : RGBc) : ℤ :=
  clamp (round_int ((0.299 : ℚ) * (c.r * 255) + (0.587 : ℚ) * (c.g * 255)
    + (0.114 : ℚ) * (c.b * 255))) 0 255

/-- Embeds the copy `RGB(rgb)` on an already-RGB value: a copy through the clamping
setters. -/
def RGBc.copyClamp (c : RGBc) : RGBc :=
  ⟨clamp c.r 0 1, clamp c.g 0 1, clamp c.b 0 1, clamp c.a 0 1⟩

/-- Embeds `_ColorUtil.get_luminance`: an integer on the 0–255 scale. -/
def get_luminance (self : ColorV) : Except PyErr ℤ := do
  let rgb ← RGB_new (.vcolor self)
  pure (luminance_calc rgb)

/-- The module `__init__.py` imports only the color classes and `util`; the bare names
`SCALE_PERCENT` (`blend`, line 154) and `clamp` (`brightness` line 125,
`contrast` line 45) are unbound module globals, so loading them raises
`NameError`.  The flag records that no such binding exists. -/
def initModuleNamesBound : Bool := false

/-- Embeds `_ColorUtil.colorize`. -/
def colorize (self : ColorV) (deg : ℚ) : Except PyErr ColorV := do
  let hsl ← HSL_new (.vcolor self)
  let hsl := hsl.setH (deg * HUE_SCALE)
  update_from self (.hsl hsl)

/-- Embeds `_ColorUtil.grayscale`. -/
def grayscale (self : ColorV) : Except PyErr ColorV := do
  let rgb ← RGB_new (.vcolor self)
  let luminance ← get_luminance self
  let rgb := ((rgb.setR (luminance : ℚ)).setG (luminance : ℚ)).setB (luminance : ℚ)
  update_from self (.rgb rgb)

/-- Embeds `_ColorUtil.sepia`: the matrix is applied sequentially, so the new red
feeds the green row and the new red/green feed the blue row, exactly as in
the source. -/
def sepia (self : ColorV) : Except PyErr ColorV := do
  let rgb ← RGB_new (.vcolor self)
  let rgb := rgb.setR (rgb.r * (0.393 : ℚ) + rgb.g * (0.769 : ℚ) + rgb.b * (0.189 : ℚ))
  let rgb := rgb.setG (rgb.r * (0.349 : ℚ) + rgb.g * (0.686 : ℚ) + rgb.b * (0.168 : ℚ))
  let rgb := rgb.setB (rgb.r * (0.272 : ℚ) + rgb.g * (0.534 : ℚ) + rgb.b * (0.131 : ℚ))
  update_from self (.rgb rgb)

/-- Embeds `_ColorUtil.blend`.  CPython loads the global `SCALE_PERCENT` while
evaluating the first statement and raises `NameError` there.  The dead
remainder transcribes the source, including the `HSL(color)` conversion in
the `CS_HWB` branch whose `.w` access would raise `AttributeError`, and the
aliasing `this = self` when `self` already has the requested variant (the
final `update_from` is then a no-op on the already-mutated alias). -/
def blend (self color : ColorV) (percent : ℚ) (alpha : Bool)
    (color_space : ℕ) : Except PyErr ColorV :=
  if ¬ initModuleNamesBound then .error (.nameError "SCALE_PERCENT") else do
  let factor := clamp (clamp percent 0 100 * SCALE_PERCENT) 0 1
  if color_space = CS_RGB then do
    let colorC ← match color with | .rgb c => pure c | _ => RGB_new (.vcolor color)
    let this ← match self with | .rgb c => pure c | _ => RGB_new (.vcolor self)
    let this := this.setR (rgb_blend_channel this.r colorC.r factor)
    let this := this.setG (rgb_blend_channel this.g colorC.g factor)
    let this := this.setB (rgb_blend_channel this.b colorC.b factor)
    let this := if alpha then this.setA (rgb_blend_channel this.a colorC.a factor) else this
    match self with
    | .rgb _ => pure (.rgb this)
    | _ => update_from self (.rgb this)
  else if color_space = CS_HSL then do
    let colorC ← match color with | .hsl c => pure c | _ => HSL_new (.vcolor color)
    let this ← match self with | .hsl c => pure c | _ => HSL_new (.vcolor self)
    let this := this.setH (hue_blend_channel this.h colorC.h factor)
    let this := this.setL (percent_blend_channel this.l colorC.l factor)
    let this := this.setS (percent_blend_channel this.s colorC.s factor)
    let this := if alpha then this.setA (rgb_blend_channel this.a colorC.a factor) else this
    match self with
    | .hsl _ => pure (.hsl this)
    | _ => update_from self (.hsl this)
  else if color_space = CS_HWB then
    match color with
    | .hwb colorC => do
      let this ← match self with | .hwb c => pure c | _ => HWB_new (.vcolor self)
      let this := this.setH (hue_blend_channel this.h colorC.h factor)
      let this := this.setW (percent_blend_channel this.w colorC.w factor)
      let this := this.setB (percent_blend_channel this.b colorC.b factor)
      let this := if alpha then this.setA (rgb_blend_channel this.a colorC.a factor) else this
      match self with
      | .hwb _ => pure (.hwb this)
      | _ => update_from self (.hwb this)
    | _ => do
      let _ ← HSL_new (.vcolor color)
      let _ ← match self with | .hwb c => pure c | _ => HWB_new (.vcolor self)
      .error .attributeError
  else .error .valueError

/-- Embeds `_ColorUtil._get_overage`: returns `(overage, clipped channel)`. -/
def get_overage (c : ℚ) : ℚ × ℚ :=
  if c < 0 then (0 + c, 0)
  else if c > 255 then (c - 255, 255)
  else (0, c)

/-- Embeds `_ColorUtil._distribute_overage`: split `o` evenly over the channels
still in the slot set `s`. -/
def distribute_overage (c : ℚ × ℚ × ℚ) (o : ℚ) (s : List String) : ℚ × ℚ × ℚ :=
  if s.length = 0 then c
  else
    let parts := o / (s.length : ℚ)
    if s.contains "r" && s.contains "g" then (c.1 + parts, c.2.1 + parts, c.2.2)
    else if s.contains "r" && s.contains "b" then (c.1 + parts, c.2.1, c.2.2 + parts)
    else if s.contains "g" && s.contains "b" then (c.1, c.2.1 + parts, c.2.2 + parts)
    else if s.contains "r" then (c.1 + parts, c.2.1, c.2.2)
    else if s.contains "g" then (c.1, c.2.1 + parts, c.2.2)
    else (c.1, c.2.1, c.2.2 + parts)

/-- The body of `_ColorUtil.brightness` after `rgb = RGB(self)`, with the
unbound `clamp` read as `util.clamp` (the arithmetic the dead code would
perform).  Note the scale clash transcribed from line 125: the summand
`rgb.get_luminance()` is an integer on the 0–255 scale, yet the sum is
clamped to `[0, 1]`.  The channel loop is unrolled in its fixed
`r`, `g`, `b` order, removing each overflowed channel from the slot set
before redistributing. -/
def brightness_core (rgb : RGBc) (factor : ℚ) : RGBc :=
  let total_lumes := clamp ((luminance_calc rgb.copyClamp : ℚ) + 1 * factor - 1) 0 1
  if total_lumes = 1 then ((rgb.setR 1).setG 1).setB 1
  else if total_lumes = 0 then ((rgb.setR 0).setG 0).setB 0
  else
    let pts := total_lumes - (0.299 : ℚ) * rgb.r - (0.587 : ℚ) * rgb.g
      - (0.114 : ℚ) * rgb.b
    let slots : List String := ["r", "g", "b"]
    let comps : ℚ × ℚ × ℚ := (rgb.r + pts, rgb.g + pts, rgb.b + pts)
    let (o, cr) := get_overage comps.1
    let comps := (cr, comps.2.1, comps.2.2)
    let (slots, comps) :=
      if o ≠ 0 then (slots.erase "r", distribute_overage comps o (slots.erase "r"))
      else (slots, comps)
    let (o, cg) := get_overage comps.2.1
    let comps := (comps.1, cg, comps.2.2)
    let (slots, comps) :=
      if o ≠ 0 then (slots.erase "g", distribute_overage comps o (slots.erase "g"))
      else (slots, comps)
    let (o, cb) := get_overage comps.2.2
    let comps := (comps.1, comps.2.1, cb)
    let (slots, comps) :=
      if o ≠ 0 then (slots.erase "b", distribute_overage comps o (slots.erase "b"))
      else (slots, comps)
    let _ := slots
    ((rgb.setR comps.1).setG comps.2.1).setB comps.2.2

/-- Embeds `_ColorUtil.brightness`.  `rgb = RGB(self)` runs first; then CPython
loads the unbound global `clamp` on line 125 and raises `NameError` before
anything else happens.  The dead remainder is `brightness_core` followed by
`update_from`. -/
def brightness (self : ColorV) (factor : ℚ) : Except PyErr ColorV := do
  let rgb ← RGB_new (.vcolor self)
  if ¬ initModuleNamesBound then .error (.nameError "clamp")
  else update_from self (.rgb (brightness_core rgb factor))

/-! ### `_RGB` serialization -/

def hexDigitUpper (n : ℕ) : Char :=
  if n < 10 then Char.ofNat (48 + n) else Char.ofNat (55 + n)

def natHexAux : ℕ → ℕ → List Char
  | 0, _ => []
  | fuel + 1, n =>
      if n < 16 then [hexDigitUpper n]
      else natHexAux fuel (n / 16) ++ [hexDigitUpper (n % 16)]

/-- Embeds the format `"{:02X}".format(i)`: uppercase hex, zero-padded to two digits. -/
def hexByteStr (i : ℤ) : List Char :=
  let ds := natHexAux (i.natAbs + 1) i.natAbs
  let ds := List.replicate (2 - ds.length) '0' ++ ds
  if i < 0 then '-' :: ds else ds

/-- Embeds `rgb.RE_COMPRESS` as applied by `_get_hex`: a 7-character `#rrggbb` whose three
pairs are each doubled compresses to `#rgb` (`m.expand(r"#\1\2\3")`);
otherwise the value is unchanged.  `_get_hex` always feeds canonical
uppercase hex, so the `(?i)` flag and case-insensitive backreferences never
matter. -/
def compressHex6 (s : String) : String :=
  match s.data with
  | ['#', a, b, c, d, e, f] =>
      if isHexCI a && isHexCI c && isHexCI e && a = b && c = d && e = f then
        String.mk ['#', a, c, e]
      else s
  | _ => s

/-- Embeds `rgb.RE_COMPRESS` as applied by `_get_hexa`: a 9-character `#rrggbbaa` with all
four pairs doubled compresses to `#rgba`. -/
def compressHex8 (s : String) : String :=
  match s.data with
  | ['#', a, b, c, d, e, f, g, h] =>
      if isHexCI a && isHexCI c && isHexCI e && isHexCI g
          && a = b && c = d && e = f && g = h then
        String.mk ['#', a, c, e, g]
      else s
  | _ => s

/-- Embeds `_RGB._get_hex`. -/
def rgb_get_hex (c : RGBc) (compress : Bool) : String :=
  let value := String.mk ('#' :: (hexByteStr (round_int (c.r * 255))
    ++ hexByteStr (round_int (c.g * 255)) ++ hexByteStr (round_int (c.b * 255))))
  if compress then compressHex6 value else value

/-- Embeds `_RGB._get_hexa`. -/
def rgb_get_hexa (c : RGBc) (compress : Bool) : String :=
  let value := String.mk ('#' :: (hexByteStr (round_int (c.r * 255))
    ++ hexByteStr (round_int (c.g * 255)) ++ hexByteStr (round_int (c.b * 255))
    ++ hexByteStr (round_int (c.a * 255))))
  if compress then compressHex8 value else value

/-- Embeds `_RGB._get_rgb`. -/
def rgb_get_rgb (c : RGBc) (comma : Bool) : String :=
  let rs := intStr (round_int (c.r * 255))
  let gs := intStr (round_int (c.g * 255))
  let bs := intStr (round_int (c.b * 255))
  if comma then "rgb(" ++ rs ++ ", " ++ gs ++ ", " ++ bs ++ ")"
  else "rgb(" ++ rs ++ " " ++ gs ++ " " ++ bs ++ ")"

/-- Embeds `_RGB._get_rgba`: the alpha goes through `util.fmt_float(self.a, 3)`,
which raises `NameError` (see `fmt_float`). -/
def rgb_get_rgba (c : RGBc) (comma : Bool) : Except PyErr String := do
  let rs := intStr (round_int (c.r * 255))
  let gs := intStr (round_int (c.g * 255))
  let bs := intStr (round_int (c.b * 255))
  let as_ ← fmt_float c.a 3
  pure (if comma then "rgba(" ++ rs ++ ", " ++ gs ++ ", " ++ bs ++ ", " ++ as_ ++ ")"
    else "rgb(" ++ rs ++ " " ++ gs ++ " " ++ bs ++ " / " ++ as_ ++ ")")

/-- Embeds `_RGB.to_css`.  Note that in the hex branch the source calls
`self._get_hexa()` / `self._get_hex()` with no arguments, so the `compress`
keyword received by `to_css` is never forwarded and the helpers run with
their default `compress=False`. -/
def rgb_to_css (c : RGBc)
    (alpha prefer_alpha prefer_name prefer_hex compress comma : Bool) :
    Except PyErr String := do
  let _ := compress
  let value := ""
  let value :=
    if prefer_hex || prefer_name then
      let h := if alpha && (prefer_alpha || c.a < 1) then rgb_get_hexa c false
               else rgb_get_hex c false
      let value := if prefer_hex then h else value
      if prefer_name then
        match hex2name h with
        | some name => name
        | none => value
      else value
    else value
  if value = "" then
    if alpha && (prefer_alpha || c.a < 1) then rgb_get_rgba c comma
    else pure (rgb_get_rgb c comma)
  else pure value

/-! ### The channel-range invariant -/

/-- A channel value lies in the closed interval `[0, 1]`. -/
def inB (q : ℚ) : Prop := 0 ≤ q ∧ q ≤ 1

instance (q : ℚ) : Decidable (inB q) := instDecidableAnd

@[reducible] def RGBc.inBounds (c : RGBc) : Prop := inB c.r ∧ inB c.g ∧ inB c.b ∧ inB c.a

@[reducible] def HSLc.inBounds (c : HSLc) : Prop := inB c.h ∧ inB c.s ∧ inB c.l ∧ inB c.a

@[reducible] def HWBc.inBounds (c : HWBc) : Prop := inB c.h ∧ inB c.w ∧ inB c.b ∧ inB c.a

@[reducible] def ColorV.inBounds : ColorV → Prop
  | .rgb c => c.inBounds
  | .hsl c => c.inBounds
  | .hwb c => c.inBounds

/-! ### Proofs -/

/- `Rat.add`/`mul`/`sub`/`inv`/`ofScientific` are shipped `@[irreducible]`;
restoring default reducibility lets `decide` evaluate the embedded code on
concrete inputs inside this file. -/
attribute [local semireducible] Rat.add Rat.mul Rat.sub Rat.inv Rat.ofScientific

theorem inB_clamp (v : ℚ) : inB (clamp v 0 1) :=
  ⟨le_max_right _ _, max_le (min_le_right _ _) zero_le_one⟩

theorem inB_mix (cf af cb ab : ℚ) : inB (mix_channel cf af cb ab) :=
  inB_clamp _

/-- Any rational is at most the `toNat` of its numerator plus one (the fuel bound
used by the wrap loops). -/
theorem rat_le_num_toNat_succ (q : ℚ) : q ≤ (q.num.toNat : ℚ) + 1 := by
  rcases le_or_lt 0 q.num with hn | hn
  · have hq : q ≤ (q.num : ℚ) := by
      conv_lhs => rw [← Rat.num_div_den q]
      apply div_le_self
      · exact_mod_cast hn
      · exact_mod_cast q.pos
    have : (q.num : ℚ) = (q.num.toNat : ℚ) := by
      exact_mod_cast (Int.toNat_of_nonneg hn).symm
    linarith [this ▸ hq]
  · have hq : q < 0 := by
      by_contra hc
      exact absurd (Rat.num_nonneg.mpr (not_lt.mp hc)) (not_le.mpr hn)
    have : (0 : ℚ) ≤ (q.num.toNat : ℚ) := by positivity
    linarith

theorem wrapDownF_le {n : ℕ} {h : ℚ} (hle : h ≤ 1 + n) : wrapDownF n h ≤ 1 := by
  induction n generalizing h with
  | zero => simpa [wrapDownF] using hle
  | succ n ih =>
      rw [wrapDownF]
      split
      · apply ih
        push_cast at hle ⊢
        linarith
      · linarith [not_lt.mp (by assumption : ¬ h > 1)]

theorem wrapDownF_stay {n : ℕ} {h : ℚ} (hle : h ≤ 1) : wrapDownF n h = h := by
  induction n with
  | zero => rfl
  | succ n ih =>
      rw [wrapDownF]
      split
      · exact absurd hle (not_le.mpr (by assumption))
      · rfl

theorem wrapDownF_pos {n : ℕ} {h : ℚ} (hpos : 0 < h) : 0 < wrapDownF n h := by
  induction n generalizing h with
  | zero => simpa [wrapDownF] using hpos
  | succ n ih =>
      rw [wrapDownF]
      split
      · exact ih (by linarith [(by assumption : h > 1)])
      · exact hpos

theorem wrapDownF_sub_int (n : ℕ) (h : ℚ) :
    ∃ k : ℤ, 0 ≤ k ∧ wrapDownF n h = h - k := by
  induction n generalizing h with
  | zero => exact ⟨0, le_refl 0, by simp [wrapDownF]⟩
  | succ n ih =>
      rw [wrapDownF]
      split
      · obtain ⟨k, hknn, hk⟩ := ih (h - 1)
        exact ⟨k + 1, by omega, by push_cast; linarith⟩
      · exact ⟨0, le_refl 0, by simp⟩

theorem wrapUpF_nonneg {n : ℕ} {h : ℚ} (hge : -h ≤ n) : 0 ≤ wrapUpF n h := by
  induction n generalizing h with
  | zero => simpa [wrapUpF] using neg_nonpos.mp (by simpa using hge)
  | succ n ih =>
      rw [wrapUpF]
      split
      · apply ih
        push_cast at hge ⊢
        linarith
      · exact not_lt.mp (by assumption)

theorem wrapUpF_le_one {n : ℕ} {h : ℚ} (hle : h ≤ 1) : wrapUpF n h ≤ 1 := by
  induction n generalizing h with
  | zero => simpa [wrapUpF] using hle
  | succ n ih =>
      rw [wrapUpF]
      split
      · exact ih (by linarith [(by assumption : h < 0)])
      · exact hle

theorem wrapUpF_lt_one {n : ℕ} {h : ℚ} (hge : -h ≤ n) (hlt : h < 1) :
    wrapUpF n h < 1 := by
  induction n generalizing h with
  | zero => simpa [wrapUpF] using hlt
  | succ n ih =>
      rw [wrapUpF]
      split
      · apply ih
        · push_cast at hge ⊢
          linarith
        · linarith [(by assumption : h < 0)]
      · exact hlt

theorem wrapUpF_stay {n : ℕ} {h : ℚ} (hge : 0 ≤ h) : wrapUpF n h = h := by
  induction n with
  | zero => rfl
  | succ n ih =>
      rw [wrapUpF]
      split
      · exact absurd hge (not_le.mpr (by assumption))
      · rfl

theorem wrapUpF_add_int (n : ℕ) (h : ℚ) : ∃ k : ℤ, wrapUpF n h = h + k := by
  induction n generalizing h with
  | zero => exact ⟨0, by simp [wrapUpF]⟩
  | succ n ih =>
      rw [wrapUpF]
      split
      · obtain ⟨k, hk⟩ := ih (h + 1)
        exact ⟨k + 1, by push_cast; linarith⟩
      · exact ⟨0, by simp⟩

theorem hueWrap_nonneg (h : ℚ) : 0 ≤ hueWrap h := by
  unfold hueWrap
  apply wrapUpF_nonneg
  exact le_trans (rat_le_num_toNat_succ _) (by push_cast; linarith)

theorem hueWrap_le_one (h : ℚ) : hueWrap h ≤ 1 := by
  unfold hueWrap
  apply wrapUpF_le_one
  apply wrapDownF_le
  exact le_trans (rat_le_num_toNat_succ h) (by push_cast; linarith)

theorem hueWrap_add_int (h : ℚ) : ∃ k : ℤ, hueWrap h = h + k := by
  unfold hueWrap
  obtain ⟨k1, hk1nn, hk1⟩ := wrapDownF_sub_int (h.num.toNat + 1) h
  obtain ⟨k2, hk2⟩ := wrapUpF_add_int
    ((-(wrapDownF (h.num.toNat + 1) h)).num.toNat + 1) (wrapDownF (h.num.toNat + 1) h)
  refine ⟨k2 - k1, ?_⟩
  rw [hk2, hk1]
  push_cast
  ring

theorem hueWrap_pos {h : ℚ} (hpos : 0 < h) : 0 < hueWrap h := by
  unfold hueWrap
  have h1 : 0 < wrapDownF (h.num.toNat + 1) h := wrapDownF_pos hpos
  rw [wrapUpF_stay h1.le]
  exact h1

/-- The embedded Python floor agrees with the mathematical floor on the
rationals. -/
theorem pyFloor_eq_floor (q : ℚ) : pyFloor q = ⌊q⌋ := by
  unfold pyFloor
  rw [Int.fdiv_eq_ediv _ (by positivity)]
  rw [← Rat.floor_intCast_div_natCast q.num q.den, Rat.num_div_den]

/-- The embedded Python `% 1.0` agrees with the fractional part. -/
theorem pyMod1_eq_fract (q : ℚ) : pyMod1 q = Int.fract q := by
  unfold pyMod1
  rw [pyFloor_eq_floor]
  rfl

/-- Exact characterization of the wrap loops: a sum that is an integer
`≥ 1` comes out as exactly `1` (the strict `while h > 1.0` comparison never
fires on it), and every other sum is reduced modulo 1 into `[0, 1)`.
Integrality of a rational is `den = 1` (Lean rationals are reduced). -/
theorem hueWrap_eq (h : ℚ) :
    hueWrap h = if 1 ≤ h ∧ h.den = 1 then 1 else pyMod1 h := by
  have hr0 : 0 ≤ hueWrap h := hueWrap_nonneg h
  have hr1 : hueWrap h ≤ 1 := hueWrap_le_one h
  obtain ⟨k, hk⟩ := hueWrap_add_int h
  split
  case isTrue hc =>
    obtain ⟨hge, hden⟩ := hc
    have hnum : ((h.num : ℤ) : ℚ) = h := by
      have h2 := Rat.num_div_den h
      rw [hden] at h2
      simpa using h2
    have hpos : 0 < hueWrap h := hueWrap_pos (lt_of_lt_of_le zero_lt_one hge)
    have hcast : hueWrap h = ((h.num + k : ℤ) : ℚ) := by
      rw [hk]
      push_cast
      rw [hnum]
    have h1 : (0 : ℤ) < h.num + k := by
      rw [hcast] at hpos
      exact_mod_cast hpos
    have h2 : h.num + k ≤ 1 := by
      rw [hcast] at hr1
      exact_mod_cast hr1
    have h3 : h.num + k = 1 := by omega
    rw [hcast, h3]
    norm_num
  case isFalse hc =>
    have hwdle : wrapDownF (h.num.toNat + 1) h ≤ 1 :=
      wrapDownF_le (le_trans (rat_le_num_toNat_succ h) (by push_cast; linarith))
    rcases lt_or_eq_of_le hwdle with hwdlt | hwdeq
    · have hlt : hueWrap h < 1 := by
        unfold hueWrap
        exact wrapUpF_lt_one
          (le_trans (rat_le_num_toNat_succ _) (by push_cast; linarith)) hwdlt
      rw [pyMod1_eq_fract]
      exact (Int.fract_eq_iff.mpr ⟨hr0, hlt, ⟨-k, by rw [hk]; push_cast; ring⟩⟩).symm
    · exfalso
      obtain ⟨k2, hk2nn, hk2⟩ := wrapDownF_sub_int (h.num.toNat + 1) h
      rw [hk2] at hwdeq
      have hh : h = 1 + (k2 : ℚ) := by linarith
      apply hc
      constructor
      · have hk2q : (0 : ℚ) ≤ (k2 : ℚ) := by exact_mod_cast hk2nn
        linarith
      · have hhz : h = ((1 + k2 : ℤ) : ℚ) := by
          rw [hh]
          push_cast
          ring
        rw [hhz, Rat.den_intCast]

/-- Every channel tuple an `RGB` constructor returns is in bounds: each
branch stores through `clamp`. -/
theorem RGB_new_ok_inBounds {pv : PyValue} {c : RGBc} (h : RGB_new pv = .ok c) :
    c.inBounds := by
  rcases pv with ⟨cc | cc | cc⟩ | s | l | _
  · simp only [RGB_new] at h
    injection h with h
    subst h
    exact ⟨inB_clamp _, inB_clamp _, inB_clamp _, inB_clamp _⟩
  · simp only [RGB_new] at h
    injection h with h
    subst h
    exact ⟨inB_clamp _, inB_clamp _, inB_clamp _, inB_clamp _⟩
  · simp only [RGB_new] at h
    rcases hres : hwb_to_rgb cc.h cc.w cc.b with e | ⟨r, g, b⟩ <;> rw [hres] at h
    · exact Except.noConfusion h
    · injection h with h
      subst h
      exact ⟨inB_clamp _, inB_clamp _, inB_clamp _, inB_clamp _⟩
  · simp only [RGB_new] at h
    rcases hres : rgb_css_match s with e | vv <;> rw [hres] at h
    · exact Except.noConfusion h
    · simp only [bind, Except.bind] at h
      split at h
      · exact Except.noConfusion h
      · injection h with h
        subst h
        exact ⟨inB_clamp _, inB_clamp _, inB_clamp _, inB_clamp _⟩
      · exact Except.noConfusion h
  · simp only [RGB_new] at h
    split at h
    · injection h with h
      subst h
      exact ⟨inB_clamp _, inB_clamp _, inB_clamp _, inB_clamp _⟩
    · injection h with h
      subst h
      exact ⟨inB_clamp _, inB_clamp _, inB_clamp _, inB_clamp _⟩
    · exact Except.noConfusion h
  · exact Except.noConfusion h

/-- Every channel tuple an `HSL` constructor returns is in bounds. -/
theorem HSL_new_ok_inBounds {pv : PyValue} {c : HSLc} (h : HSL_new pv = .ok c) :
    c.inBounds := by
  rcases pv with ⟨cc | cc | cc⟩ | s | l | _
  · simp only [HSL_new] at h
    injection h with h
    subst h
    exact ⟨inB_clamp _, inB_clamp _, inB_clamp _, inB_clamp _⟩
  · simp only [HSL_new] at h
    injection h with h
    subst h
    exact ⟨inB_clamp _, inB_clamp _, inB_clamp _, inB_clamp _⟩
  · simp only [HSL_new] at h
    rcases hres : hwb_to_hsl cc.h cc.w cc.b with e | ⟨x, y, z⟩ <;> rw [hres] at h
    · exact Except.noConfusion h
    · injection h with h
      subst h
      exact ⟨inB_clamp _, inB_clamp _, inB_clamp _, inB_clamp _⟩
  · simp only [HSL_new] at h
    rcases hres : hsl_css_match s with e | vv <;> rw [hres] at h
    · exact Except.noConfusion h
    · simp only [bind, Except.bind] at h
      split at h
      · exact Except.noConfusion h
      · injection h with h
        subst h
        exact ⟨inB_clamp _, inB_clamp _, inB_clamp _, inB_clamp _⟩
      · exact Except.noConfusion h
  · simp only [HSL_new] at h
    split at h
    · injection h with h
      subst h
      exact ⟨inB_clamp _, inB_clamp _, inB_clamp _, inB_clamp _⟩
    · injection h with h
      subst h
      exact ⟨inB_clamp _, inB_clamp _, inB_clamp _, inB_clamp _⟩
    · exact Except.noConfusion h
  · exact Except.noConfusion h

/-- Every channel tuple an `HWB` constructor returns is in bounds. -/
theorem HWB_new_ok_inBounds {pv : PyValue} {c : HWBc} (h : HWB_new pv = .ok c) :
    c.inBounds := by
  rcases pv with ⟨cc | cc | cc⟩ | s | l | _
  · simp only [HWB_new] at h
    injection h with h
    subst h
    exact ⟨inB_clamp _, inB_clamp _, inB_clamp _, inB_clamp _⟩
  · simp only [HWB_new] at h
    injection h with h
    subst h
    exact ⟨inB_clamp _, inB_clamp _, inB_clamp _, inB_clamp _⟩
  · simp only [HWB_new] at h
    injection h with h
    subst h
    exact ⟨inB_clamp _, inB_clamp _, inB_clamp _, inB_clamp _⟩
  · simp only [HWB_new] at h
    rcases hres : hwb_css_match s with e | vv <;> rw [hres] at h
    · exact Except.noConfusion h
    · simp only [bind, Except.bind] at h
      split at h
      · exact Except.noConfusion h
      · injection h with h
        subst h
        exact ⟨inB_clamp _, inB_clamp _, inB_clamp _, inB_clamp _⟩
      · exact Except.noConfusion h
  · simp only [HWB_new] at h
    split at h
    · injection h with h
      subst h
      exact ⟨inB_clamp _, inB_clamp _, inB_clamp _, inB_clamp _⟩
    · injection h with h
      subst h
      exact ⟨inB_clamp _, inB_clamp _, inB_clamp _, inB_clamp _⟩
    · exact Except.noConfusion h
  · exact Except.noConfusion h

/-- Embeds `update_from` keeps/establishes the invariant: cross-variant sources go
through a constructor (which clamps), a same-variant source is copied
directly, needing its own bounds. -/
theorem update_from_ok_inBounds {self obj res : ColorV} (hobj : obj.inBounds)
    (h : update_from self obj = .ok res) : res.inBounds := by
  have conv_rgb : ∀ (o2 : RGBc), RGB_new (.vcolor obj) = .ok o2 →
      (ColorV.rgb ⟨o2.r, o2.g, o2.b, clamp o2.a 0 1⟩).inBounds := by
    intro o2 hc
    have hb := RGB_new_ok_inBounds hc
    exact ⟨hb.1, hb.2.1, hb.2.2.1, inB_clamp _⟩
  have conv_hsl : ∀ (o2 : HSLc), HSL_new (.vcolor obj) = .ok o2 →
      (ColorV.hsl ⟨o2.h, o2.s, o2.l, clamp o2.a 0 1⟩).inBounds := by
    intro o2 hc
    have hb := HSL_new_ok_inBounds hc
    exact ⟨hb.1, hb.2.1, hb.2.2.1, inB_clamp _⟩
  have conv_hwb : ∀ (o2 : HWBc), HWB_new (.vcolor obj) = .ok o2 →
      (ColorV.hwb ⟨o2.h, o2.w, o2.b, clamp o2.a 0 1⟩).inBounds := by
    intro o2 hc
    have hb := HWB_new_ok_inBounds hc
    exact ⟨hb.1, hb.2.1, hb.2.2.1, inB_clamp _⟩
  rcases self with c | c | c <;>
    simp only [update_from, bind, Except.bind] at h
  · match hobj2 : obj, hobj with
    | .rgb o, hobj =>
        simp only [hobj2] at h
        injection h with h
        subst h
        exact ⟨hobj.1, hobj.2.1, hobj.2.2.1, inB_clamp _⟩
    | .hsl o, hobj | .hwb o, hobj =>
        rcases hc : RGB_new (.vcolor obj) with e | o2 <;>
          rw [hobj2] at hc <;> rw [hc] at h
        · exact Except.noConfusion h
        · injection h with h
          subst h
          exact conv_rgb o2 (hobj2 ▸ hc)
  · match hobj2 : obj, hobj with
    | .hsl o, hobj =>
        simp only [hobj2] at h
        injection h with h
        subst h
        exact ⟨hobj.1, hobj.2.1, hobj.2.2.1, inB_clamp _⟩
    | .rgb o, hobj | .hwb o, hobj =>
        rcases hc : HSL_new (.vcolor obj) with e | o2 <;>
          rw [hobj2] at hc <;> rw [hc] at h
        · exact Except.noConfusion h
        · injection h with h
          subst h
          exact conv_hsl o2 (hobj2 ▸ hc)
  · match hobj2 : obj, hobj with
    | .hwb o, hobj =>
        simp only [hobj2] at h
        injection h with h
        subst h
        exact ⟨hobj.1, hobj.2.1, hobj.2.2.1, inB_clamp _⟩
    | .rgb o, hobj | .hsl o, hobj =>
        rcases hc : HWB_new (.vcolor obj) with e | o2 <;>
          rw [hobj2] at hc <;> rw [hc] at h
        · exact Except.noConfusion h
        · injection h with h
          subst h
          exact conv_hwb o2 (hobj2 ▸ hc)

theorem ColorV.inBounds_rgb {c : RGBc} (h : c.inBounds) : (ColorV.rgb c).inBounds := h

theorem ColorV.inBounds_hsl {c : HSLc} (h : c.inBounds) : (ColorV.hsl c).inBounds := h

theorem ColorV.inBounds_hwb {c : HWBc} (h : c.inBounds) : (ColorV.hwb c).inBounds := h

theorem sepia_ok_inBounds {self res : ColorV} (h : sepia self = .ok res) :
    res.inBounds := by
  simp only [sepia, bind, Except.bind] at h
  rcases hc : RGB_new (.vcolor self) with e | rgb <;> rw [hc] at h
  · exact Except.noConfusion h
  · refine update_from_ok_inBounds ?_ h
    exact ColorV.inBounds_rgb
      ⟨inB_clamp _, inB_clamp _, inB_clamp _, (RGB_new_ok_inBounds hc).2.2.2⟩

theorem grayscale_ok_inBounds {self res : ColorV} (h : grayscale self = .ok res) :
    res.inBounds := by
  simp only [grayscale, bind, Except.bind] at h
  rcases hc : RGB_new (.vcolor self) with e | rgb <;> rw [hc] at h
  · exact Except.noConfusion h
  · rcases hl : get_luminance self with e | lum <;> rw [hl] at h
    · exact Except.noConfusion h
    · refine update_from_ok_inBounds ?_ h
      exact ColorV.inBounds_rgb
        ⟨inB_clamp _, inB_clamp _, inB_clamp _, (RGB_new_ok_inBounds hc).2.2.2⟩

theorem colorize_ok_inBounds {self res : ColorV} {deg : ℚ}
    (h : colorize self deg = .ok res) : res.inBounds := by
  simp only [colorize, bind, Except.bind] at h
  rcases hc : HSL_new (.vcolor self) with e | hsl <;> rw [hc] at h
  · exact Except.noConfusion h
  · have hb := HSL_new_ok_inBounds hc
    refine update_from_ok_inBounds ?_ h
    exact ColorV.inBounds_hsl ⟨inB_clamp _, hb.2.1, hb.2.2.1, hb.2.2.2⟩

theorem apply_alpha_rgb_ok_inBounds {c res : RGBc} {bg : Option ColorV}
    (hc : c.inBounds) (h : apply_alpha_rgb c bg = .ok res) : res.inBounds := by
  simp only [apply_alpha_rgb, bind, Except.bind, pure, Except.pure] at h
  rcases hb : rgbBackground bg with e | b <;> simp only [hb] at h
  · exact Except.noConfusion h
  · split at h <;> (injection h with h; subst h)
    · exact ⟨inB_mix _ _ _ _, inB_mix _ _ _ _, inB_mix _ _ _ _, inB_clamp _⟩
    · exact hc

theorem apply_alpha_hsl_ok_inBounds {c res : HSLc} {bg : Option ColorV}
    (hc : c.inBounds) (h : apply_alpha_hsl c bg = .ok res) : res.inBounds := by
  simp only [apply_alpha_hsl, bind, Except.bind, pure, Except.pure] at h
  rcases hb : hslBackground bg with e | b <;> simp only [hb] at h
  · exact Except.noConfusion h
  · split at h <;> (injection h with h; subst h)
    · exact ⟨inB_mix _ _ _ _, inB_mix _ _ _ _, inB_mix _ _ _ _, inB_clamp _⟩
    · exact hc

theorem apply_alpha_hwb_ok_inBounds {c res : HWBc} {bg : Option ColorV}
    (hc : c.inBounds) (h : apply_alpha_hwb c bg = .ok res) : res.inBounds := by
  simp only [apply_alpha_hwb, bind, Except.bind, pure, Except.pure] at h
  rcases hb : hwbBackground bg with e | b <;> simp only [hb] at h
  · exact Except.noConfusion h
  · split at h <;> (injection h with h; subst h)
    · exact ⟨inB_mix _ _ _ _, inB_mix _ _ _ _, inB_mix _ _ _ _, inB_clamp _⟩
    · exact hc

/-! ### The claims -/

/-- C1 — The claim expects `parse("#ff0000")` to yield RGB(1,0,0,1) and
`to_css(prefer_hex=true, compress=true)` to yield `"#f00"`.  On the code:
parsing any hex literal raises `IndexError`, because `_split_channels` reads
`m.group(1)` from `HEX_MATCH`, whose pattern has only non-capturing groups;
and `to_css` never forwards `compress` to `_get_hex`, so even on the
intended color it returns the uncompressed uppercase `"#FF0000"` (a direct
`_get_hex(compress=True)` call would give `"#F00"`, still not `"#f00"`). -/
theorem c1_hex_parse_eval :
    css_color "#ff0000" = .error .indexError ∧
    rgb_to_css ⟨1, 0, 0, 1⟩ false false false true true false = .ok "#FF0000" ∧
    rgb_get_hex ⟨1, 0, 0, 1⟩ true = "#F00" := by
  refine ⟨by decide, by decide, by decide⟩

/-- C2 — Every public channel setter stores `clamp(value, 0, 1)`, and
every mutating operation that returns normally leaves all four stored
channels inside `[0, 1]`: all twelve variant setters, the single-channel
operations in every mode, hue rotation, `sepia`, `grayscale`, `colorize`,
`update_from` and `apply_alpha`.  (The operations that never return
normally — `blend`, `brightness`, `contrast`, `invert` and the `alpha`
channel operation, which all raise `NameError` or `TypeError` — are vacuous
here and are settled by the other claims.) -/
theorem c2_channel_invariant :
    (∀ (c : RGBc) (v : ℚ),
        (c.setR v).r = clamp v 0 1 ∧ (c.setG v).g = clamp v 0 1 ∧
        (c.setB v).b = clamp v 0 1 ∧ (c.setA v).a = clamp v 0 1) ∧
    (∀ (c : HSLc) (v : ℚ),
        (c.setH v).h = clamp v 0 1 ∧ (c.setS v).s = clamp v 0 1 ∧
        (c.setL v).l = clamp v 0 1 ∧ (c.setA v).a = clamp v 0 1) ∧
    (∀ (c : HWBc) (v : ℚ),
        (c.setH v).h = clamp v 0 1 ∧ (c.setW v).w = clamp v 0 1 ∧
        (c.setB v).b = clamp v 0 1 ∧ (c.setA v).a = clamp v 0 1) ∧
    (∀ (c : RGBc) (v f : ℚ) (op : ℕ), c.inBounds →
        (c.setR v).inBounds ∧ (c.setG v).inBounds ∧ (c.setB v).inBounds ∧
        (c.setA v).inBounds ∧ (c.red f op).inBounds ∧ (c.green f op).inBounds ∧
        (c.blue f op).inBounds) ∧
    (∀ (c : HSLc) (v f deg : ℚ) (op : ℕ), c.inBounds →
        (c.setH v).inBounds ∧ (c.setS v).inBounds ∧ (c.setL v).inBounds ∧
        (c.setA v).inBounds ∧ (c.saturation f op).inBounds ∧
        (c.lightness f op).inBounds ∧ (c.hue deg).1.inBounds) ∧
    (∀ (c : HWBc) (v f deg : ℚ) (op : ℕ), c.inBounds →
        (c.setH v).inBounds ∧ (c.setW v).inBounds ∧ (c.setB v).inBounds ∧
        (c.setA v).inBounds ∧ (c.whiteness f op).inBounds ∧
        (c.blackness f op).inBounds ∧ (c.hue deg).1.inBounds) ∧
    (∀ (self res : ColorV), sepia self = .ok res → res.inBounds) ∧
    (∀ (self res : ColorV), grayscale self = .ok res → res.inBounds) ∧
    (∀ (self res : ColorV) (deg : ℚ), colorize self deg = .ok res → res.inBounds) ∧
    (∀ (self obj res : ColorV), obj.inBounds → update_from self obj = .ok res →
        res.inBounds) ∧
    (∀ (c res : RGBc) (bg : Option ColorV), c.inBounds →
        apply_alpha_rgb c bg = .ok res → res.inBounds) ∧
    (∀ (c res : HSLc) (bg : Option ColorV), c.inBounds →
        apply_alpha_hsl c bg = .ok res → res.inBounds) ∧
    (∀ (c res : HWBc) (bg : Option ColorV), c.inBounds →
        apply_alpha_hwb c bg = .ok res → res.inBounds) := by
  refine ⟨fun c v => ⟨rfl, rfl, rfl, rfl⟩, fun c v => ⟨rfl, rfl, rfl, rfl⟩,
    fun c v => ⟨rfl, rfl, rfl, rfl⟩, ?_, ?_, ?_,
    fun _ _ h => sepia_ok_inBounds h, fun _ _ h => grayscale_ok_inBounds h,
    fun _ _ _ h => colorize_ok_inBounds h,
    fun _ _ _ hobj h => update_from_ok_inBounds hobj h,
    fun _ _ _ hc h => apply_alpha_rgb_ok_inBounds hc h,
    fun _ _ _ hc h => apply_alpha_hsl_ok_inBounds hc h,
    fun _ _ _ hc h => apply_alpha_hwb_ok_inBounds hc h⟩
  · intro c v f op hc
    exact ⟨⟨inB_clamp _, hc.2.1, hc.2.2.1, hc.2.2.2⟩,
      ⟨hc.1, inB_clamp _, hc.2.2.1, hc.2.2.2⟩,
      ⟨hc.1, hc.2.1, inB_clamp _, hc.2.2.2⟩,
      ⟨hc.1, hc.2.1, hc.2.2.1, inB_clamp _⟩,
      ⟨inB_clamp _, hc.2.1, hc.2.2.1, hc.2.2.2⟩,
      ⟨hc.1, inB_clamp _, hc.2.2.1, hc.2.2.2⟩,
      ⟨hc.1, hc.2.1, inB_clamp _, hc.2.2.2⟩⟩
  · intro c v f deg op hc
    exact ⟨⟨inB_clamp _, hc.2.1, hc.2.2.1, hc.2.2.2⟩,
      ⟨hc.1, inB_clamp _, hc.2.2.1, hc.2.2.2⟩,
      ⟨hc.1, hc.2.1, inB_clamp _, hc.2.2.2⟩,
      ⟨hc.1, hc.2.1, hc.2.2.1, inB_clamp _⟩,
      ⟨hc.1, inB_clamp _, hc.2.2.1, hc.2.2.2⟩,
      ⟨hc.1, hc.2.1, inB_clamp _, hc.2.2.2⟩,
      ⟨inB_clamp _, hc.2.1, hc.2.2.1, hc.2.2.2⟩⟩
  · intro c v f deg op hc
    exact ⟨⟨inB_clamp _, hc.2.1, hc.2.2.1, hc.2.2.2⟩,
      ⟨hc.1, inB_clamp _, hc.2.2.1, hc.2.2.2⟩,
      ⟨hc.1, hc.2.1, inB_clamp _, hc.2.2.2⟩,
      ⟨hc.1, hc.2.1, hc.2.2.1, inB_clamp _⟩,
      ⟨hc.1, inB_clamp _, hc.2.2.1, hc.2.2.2⟩,
      ⟨hc.1, hc.2.1, inB_clamp _, hc.2.2.2⟩,
      ⟨inB_clamp _, hc.2.1, hc.2.2.1, hc.2.2.2⟩⟩

/-- Witness for C2: the red channel operation on a concrete in-bounds
color produces an in-bounds color. -/
theorem c2_channel_invariant_witness :
    (RGBc.red ⟨1/2, 1/2, 1/2, 1⟩ 7 OP_SCALE).inBounds :=
  (c2_channel_invariant.2.2.2.1 ⟨1/2, 1/2, 1/2, 1⟩ 7 7 OP_SCALE
    (by decide)).2.2.2.2.1

/-- C3 — The claim says HSL-from-HWB equals `rgb_to_hsl ∘ hwb_to_rgb`.
On the code, `util.hwb_to_hsl` converts HWB to RGB and then calls
`rgb_to_hwb` — not `rgb_to_hsl` — so constructing `HSL(HWB(0, 0, 0))`
(pure red) stores `(h, s, l) = (0, 0, 0)` whereas the genuine two-hop
conversion gives `(0, 1, 1/2)`. -/
theorem c3_hwb_to_hsl_eval :
    HSL_new (.vcolor (.hwb ⟨0, 0, 0, 1⟩)) = .ok ⟨0, 0, 0, 1⟩ ∧
    hwb_to_rgb 0 0 0 = .ok (1, 0, 0) ∧
    rgb_to_hsl 1 0 0 = (0, 1, 1/2) ∧
    ((0 : ℚ), (0 : ℚ), (0 : ℚ)) ≠ ((0 : ℚ), 1, 1/2) := by
  refine ⟨by decide, by decide, by decide, by decide⟩

/-- C4 — The claim says `blend(a, a, p)` returns normally and equals
`a`.  On the code, the first statement of `_ColorUtil.blend` reads the bare name
`SCALE_PERCENT`, which is bound nowhere in `__init__.py` (only the `util`
module is imported), so every call raises `NameError` instead of returning
a color. -/
theorem c4_blend_name_error_eval :
    blend (.rgb ⟨1, 0, 0, 1⟩) (.rgb ⟨1, 0, 0, 1⟩) 50 false CS_RGB
      = .error (.nameError "SCALE_PERCENT") ∧
    (Except.error (PyErr.nameError "SCALE_PERCENT") : Except PyErr ColorV)
      ≠ .ok (.rgb ⟨1, 0, 0, 1⟩) := by
  exact ⟨by decide, by decide⟩

/-- C5 — The claim describes brightness as
`clamp(luminance_fraction + factor - 1, 0, 1)` followed by white/black
shortcuts or per-channel redistribution.  On the code, `brightness` raises
`NameError` on every call (the bare `clamp` on line 125 is unbound in
`__init__.py`); moreover, with the name resolved the summand is
`rgb.get_luminance()`, an integer on the 0–255 scale, so `brightness(red,
1.0)` — which under the claimed fraction-scale algorithm leaves the color
unchanged — computes `clamp(76 + 1 - 1, 0, 1) = 1` and returns pure
white. -/
theorem c5_brightness_name_error_eval :
    brightness (.rgb ⟨1, 0, 0, 1⟩) 1 = .error (.nameError "clamp") ∧
    brightness_core ⟨1, 0, 0, 1⟩ 1 = ⟨1, 1, 1, 1⟩ ∧
    (⟨1, 1, 1, 1⟩ : RGBc) ≠ ⟨1, 0, 0, 1⟩ := by
  exact ⟨by decide, by decide, by decide⟩

/-- C6 — The claim says `hwb_to_rgb` is total on `[0,1]³` with the
division `w / (1 - b)` guarded at `b = 1`.  The code has no guard: at
`(h, w, b) = (0, 0, 1)` the sum `w + b = 1` skips the normalization and the
division `0.0 / 0.0` raises `ZeroDivisionError`.  The `w + b > 1`
normalization itself does hold (second conjunct: `(0, 0.8, 0.8)` is scaled
to `(0.5, 0.5)` and converts to mid gray). -/
theorem c6_hwb_to_rgb_division_eval :
    hwb_to_rgb 0 0 1 = .error .zeroDivisionError ∧
    hwb_to_rgb 0 (4/5) (4/5) = .ok (1/2, 1/2, 1/2) := by
  exact ⟨by decide, by decide⟩

/-- C7 counterexample — The claim says the hue wrap lands in `[0, 1)`
and equals reduction modulo 1.  Rotating hue `0.5` by `180°` gives a sum of
exactly `1.0`; the loop `while h > 1.0` does not fire, so the method
returns `1.0`, which is outside `[0, 1)` and differs from `(0.5 + 0.5) mod
1 = 0`. -/
theorem c7_hue_wrap_counterexample :
    (HSLc.hue ⟨1/2, 0, 0, 1⟩ 180).2 = 1 ∧
    pyMod1 ((1 : ℚ)/2 + 180 * HUE_SCALE) = 0 ∧ (1 : ℚ) ≠ 0 := by
  exact ⟨by decide, by decide, by decide⟩

/-- C7 amended — `hue(deg)` adds `deg/360` to the hue fraction and wraps
by repeated ±1 adjustment (strict `while h > 1.0` / `while h < 0.0` loops)
with this exact outcome: if the resulting sum is an integer ≥ 1 the method
returns exactly `1.0` (the strict comparison keeps it instead of wrapping
to 0), and for every other sum it returns the sum reduced modulo 1, in
`[0, 1)`; the wrapped value is also what the setter stores.  In particular
rotating hue 0.0 by -10 degrees yields `350/360`.  (`den = 1` expresses
that the sum is an integer; the identical `_HWB.hue` is covered too.) -/
theorem c7_hue_wrap_amended :
    (∀ (c : HSLc) (deg : ℚ),
        (c.hue deg).2 =
          (if 1 ≤ c.h + deg * HUE_SCALE ∧ (c.h + deg * HUE_SCALE).den = 1 then 1
           else pyMod1 (c.h + deg * HUE_SCALE)) ∧
        (c.hue deg).1 = c.setH (c.hue deg).2) ∧
    (∀ (c : HWBc) (deg : ℚ),
        (c.hue deg).2 =
          (if 1 ≤ c.h + deg * HUE_SCALE ∧ (c.h + deg * HUE_SCALE).den = 1 then 1
           else pyMod1 (c.h + deg * HUE_SCALE)) ∧
        (c.hue deg).1 = c.setH (c.hue deg).2) ∧
    (HSLc.hue ⟨0, 0, 0, 1⟩ (-10)).2 = 350/360 := by
  refine ⟨fun c deg => ⟨hueWrap_eq _, rfl⟩, fun c deg => ⟨hueWrap_eq _, rfl⟩,
    by decide⟩

/-- C8 — Parsing `"rgb(255 0 0 / 50%)"` does yield RGB(1, 0, 0, 0.5),
but `to_css(alpha=true)` cannot return `"rgb(255 0 0 / 0.5)"`: the alpha
formatting in `util.fmt_float` builds the quantized string (`"0.500"`,
which the trim step would reduce to `"0.5"`) and then reads the unbound
name `RE_FLOAT_TRIM` (the pattern is bound as `RE_FLOAT_TRIM_RE`), raising
`NameError`. -/
theorem c8_rgb_parse_serialize_eval :
    css_color "rgb(255 0 0 / 50%)" = .ok (.rgb ⟨1, 0, 0, 1/2⟩) ∧
    rgb_to_css ⟨1, 0, 0, 1/2⟩ true false false false false false
      = .error (.nameError "RE_FLOAT_TRIM") ∧
    fmtFloatRender (1/2) 3 = "0.500" ∧ trimFloatString "0.500" = "0.5" := by
  exact ⟨by decide, by decide, by decide, by decide⟩

/-- C9 counterexample — The claim says `apply_alpha` on a fully opaque
color is the identity for any background argument.  The background is
resolved before the `a < 1` test, so an opaque HSL subject with an HWB
background `(0, 0, 1)` raises `ZeroDivisionError` (via the unguarded
`hwb_to_rgb`) instead of returning the subject. -/
theorem c9_apply_alpha_counterexample :
    apply_alpha_hsl ⟨0, 0, 0, 1⟩ (some (.hwb ⟨0, 0, 1, 1⟩))
      = .error .zeroDivisionError ∧
    (Except.error PyErr.zeroDivisionError : Except PyErr HSLc)
      ≠ .ok ⟨0, 0, 0, 1⟩ := by
  exact ⟨by decide, by decide⟩

/-- C9 amended — For every color with alpha exactly 1, `apply_alpha`
with no background, or with any background whose coercion into the
variant of the subject returns normally, returns the color with all four
channels unchanged; the default background (`DEF_BG` of the same variant)
always resolves, to opaque black. -/
theorem c9_apply_alpha_amended :
    (∀ (c : RGBc) (bg : Option ColorV) (b : RGBc), c.a = 1 →
        rgbBackground bg = .ok b → apply_alpha_rgb c bg = .ok c) ∧
    (∀ (c : HSLc) (bg : Option ColorV) (b : HSLc), c.a = 1 →
        hslBackground bg = .ok b → apply_alpha_hsl c bg = .ok c) ∧
    (∀ (c : HWBc) (bg : Option ColorV) (b : HWBc), c.a = 1 →
        hwbBackground bg = .ok b → apply_alpha_hwb c bg = .ok c) ∧
    rgbBackground none = .ok ⟨0, 0, 0, 1⟩ ∧
    hslBackground none = .ok ⟨0, 0, 0, 1⟩ ∧
    hwbBackground none = .ok ⟨0, 0, 0, 1⟩ := by
  refine ⟨?_, ?_, ?_, by decide, by decide, by decide⟩ <;>
    (intro c bg b ha hb
     simp only [apply_alpha_rgb, apply_alpha_hsl, apply_alpha_hwb, bind,
       Except.bind, hb]
     rw [ha, if_neg (lt_irrefl (1 : ℚ))]
     rfl)

/-- Witness for C9 amended: a concrete opaque red with the default
background comes back unchanged. -/
theorem c9_apply_alpha_amended_witness :
    apply_alpha_rgb ⟨1, 0, 0, 1⟩ none = .ok ⟨1, 0, 0, 1⟩ :=
  c9_apply_alpha_amended.1 ⟨1, 0, 0, 1⟩ none ⟨0, 0, 0, 1⟩ rfl (by decide)

/-- C10 — Constructing `RGB`, `HSL` or `HWB` with the `color` argument
left as `None` raises `TypeError`: `None` matches none of the `isinstance`
tests, and the `DEF_BG` defaulting line sits dead inside the string branch,
so no default color is ever produced. -/
theorem c10_none_constructor_type_error :
    RGB_new .vnone = .error .typeError ∧
    HSL_new .vnone = .error .typeError ∧
    HWB_new .vnone = .error .typeError :=
  ⟨rfl, rfl, rfl⟩

end ColorCss
